import Mathlib

/-!
# Symbol table of the KPL compiler (`Bai4/day1/incompleted/symtab.c`)

A shallow embedding of the type model, the object model, the scope chain and
the symbol-table controller of `symtab.c`, and of the file comparisons of
`Bai2/check_similar.c` and `test_parser/incompleted/test.c`, followed by the
properties proved about them.

Memory model.  `Object` and `Scope` are the only structures the code reaches
through more than one pointer (back-references `owner`, `outer`, `function`,
the parameter lists), so they live in two typed stores indexed by address;
`malloc` of one of them returns the first address past the store.  A `Type`
and an attribute block are reached through exactly one owning pointer and are
embedded by value in their holder; only for `duplicateType`, whose result is
a new object, the `Type` nodes lie in a store of their own, from which the
tree at a pointer is read off.  An `ObjectNode` chain is the Lean list of
the `object` pointers of its nodes.  An owned value that has not been
assigned yet is `none`.  An operation that dereferences an invalid pointer
has no result (`none`).  A stored name is a string that fits the `name`
buffer of its object, and `strcmp` returns 0 exactly on equal strings; the
object factories are given for a name that fits, and `strcpy` with the
`inBuffer` forms of the factories says what the copy does to any name.
-/

namespace KPL

/-! ## Declarations of `symtab.h` -/

/-- Modelled from the spec: `enum TypeClass` of `symtab.h` (not under `src/`),
the three tags `symtab.c` uses. -/
inductive TypeClass where
  | TP_INT
  | TP_CHAR
  | TP_ARRAY
  deriving DecidableEq, Repr

/-- Modelled from the spec: `struct Type_` of `symtab.h` (not under `src/`), a
variant over INT, CHAR and ARRAY with a size and an owned element type.  The
fields `arraySize` and `elementType` exist only on an ARRAY node: `symtab.c`
never writes or reads them on a node of another class. -/
inductive Type_ where
  | int : Type_
  | char : Type_
  | array (arraySize : Int) (elementType : Type_) : Type_
  deriving DecidableEq, Repr

/-- The field `type->typeClass`. -/
def Type_.typeClass : Type_ → TypeClass
  | .int => .TP_INT
  | .char => .TP_CHAR
  | .array _ _ => .TP_ARRAY

/-! ## Type utilities -/

/-- `makeIntType`, lines 23-27. -/
def makeIntType : Type_ := .int

/-- `makeCharType`, lines 29-33. -/
def makeCharType : Type_ := .char

/-- `makeArrayType`, lines 35-41. -/
def makeArrayType (arraySize : Int) (elementType : Type_) : Type_ :=
  .array arraySize elementType

/-- `compareType`, lines 70-84: 0 when the classes differ; for two arrays 0
when the sizes differ and otherwise the comparison of the element types; 1
for two nodes of the same primitive class. -/
def compareType (type1 type2 : Type_) : Int :=
  if type1.typeClass = type2.typeClass then
    match type1, type2 with
    | .array size1 elem1, .array size2 elem2 =>
        if size1 = size2 then compareType elem1 elem2 else 0
    | _, _ => 1
  else 0

/-! ## Constant values, objects, scopes -/

/-- Modelled from the spec: `struct ConstantValue_` of `symtab.h` (not under
`src/`): a type tag and the union of `intValue` and `charValue`; a member
that was not written is `none`. -/
structure ConstantValue where
  type : TypeClass
  intValue : Option Int
  charValue : Option Char
  deriving DecidableEq, Repr

/-- A C pointer to an `Object` or to a `Scope`: NULL or an address of the
store of that structure. -/
inductive Ptr where
  | null
  | addr (a : Nat)
  deriving DecidableEq, Repr

/-- Modelled from the spec: `enum ObjectKind` of `symtab.h` (not under
`src/`), the seven kinds `freeObject` switches over. -/
inductive ObjectKind where
  | OBJ_CONSTANT
  | OBJ_VARIABLE
  | OBJ_TYPE
  | OBJ_FUNCTION
  | OBJ_PROCEDURE
  | OBJ_PARAMETER
  | OBJ_PROGRAM
  deriving DecidableEq, Repr

/-- Modelled from the spec: `enum ParamKind` of `symtab.h` (not under `src/`). -/
inductive ParamKind where
  | PARAM_VALUE
  | PARAM_REFERENCE
  deriving DecidableEq, Repr

/-- Modelled from the spec: the union of attribute-block pointers of
`struct Object_` (`symtab.h`, not under `src/`) together with the block it
points to.  The constructor records which block was allocated, its fields
are the members `symtab.c` uses; `paramList` is the `ObjectNode` chain of the
routine, given by the object pointers of its nodes. -/
inductive Attrs where
  | constAttrs (value : Option ConstantValue)
  | typeAttrs (actualType : Option Type_)
  | varAttrs (type : Option Type_) (scope : Ptr)
  | funcAttrs (paramList : List Ptr) (returnType : Option Type_) (scope : Ptr)
  | procAttrs (paramList : List Ptr) (scope : Ptr)
  | progAttrs (scope : Ptr)
  | paramAttrs (kind : ParamKind) (type : Option Type_) (function : Ptr)
  deriving DecidableEq, Repr

/-- Modelled from the spec: `struct Object_` of `symtab.h` (not under `src/`):
the name, the kind tag and the attribute block. -/
structure Object where
  name : String
  kind : ObjectKind
  attrs : Attrs
  deriving DecidableEq, Repr

/-- Modelled from the spec: `struct Scope_` of `symtab.h` (not under `src/`):
the `ObjectNode` chain of the declared objects, the owner and the enclosing
scope. -/
structure Scope where
  objList : List Ptr
  owner : Ptr
  outer : Ptr
  deriving DecidableEq, Repr

/-- Modelled from the spec: `struct SymTab_` of `symtab.h` (not under `src/`). -/
structure SymTab where
  program : Ptr
  currentScope : Ptr
  globalObjectList : List Ptr
  deriving DecidableEq, Repr

/-- The memory `symtab.c` works on: the block the global `symtab` points to,
the globals `intType` and `charType`, and the stores of the allocated
objects and scopes (the address of a cell is its index). -/
structure State where
  symtab : SymTab
  intType : Option Type_
  charType : Option Type_
  objects : List Object
  scopes : List Scope
  deriving DecidableEq, Repr

/-- The object `p` points to, if `p` is a valid pointer. -/
def State.object (st : State) : Ptr → Option Object
  | .null => none
  | .addr a => st.objects[a]?

/-- The scope `p` points to, if `p` is a valid pointer. -/
def State.scope (st : State) : Ptr → Option Scope
  | .null => none
  | .addr a => st.scopes[a]?

/-- A store through the object pointer `p`. -/
def State.setObject (st : State) (p : Ptr) (o : Object) : Option State :=
  match p with
  | .null => none
  | .addr a => if a < st.objects.length then some { st with objects := st.objects.set a o } else none

/-- A store through the scope pointer `p`. -/
def State.setScope (st : State) (p : Ptr) (s : Scope) : Option State :=
  match p with
  | .null => none
  | .addr a => if a < st.scopes.length then some { st with scopes := st.scopes.set a s } else none

/-! ## Object utilities -/

/-- `createScope`, lines 162-169. -/
def createScope (st : State) (owner outer : Ptr) : State × Ptr :=
  ({ st with scopes := st.scopes ++ [Scope.mk [] owner outer] },
   .addr st.scopes.length)

/-- `createProgramObject`, lines 177-187, for a name `strcpy` stores whole: a name that fits
the `name` buffer of the object (see `strcpy`). -/
def createProgramObject (st : State) (programName : String) : State × Ptr :=
  let program := Ptr.addr st.objects.length
  let (st1, scope) := createScope st program .null
  let st2 := { st1 with
    objects := st1.objects ++ [Object.mk programName .OBJ_PROGRAM (.progAttrs scope)] }
  ({ st2 with symtab := { st2.symtab with program := program } }, program)

/-- `createConstantObject`, lines 195-202, for a name `strcpy` stores whole: a name that fits
the `name` buffer of the object (see `strcpy`). -/
def createConstantObject (st : State) (name : String) : State × Ptr :=
  ({ st with objects := st.objects ++ [Object.mk name .OBJ_TYPE (.typeAttrs none)] },
   .addr st.objects.length)

/-- `createTypeObject`, lines 210-217, for a name `strcpy` stores whole: a name that fits
the `name` buffer of the object (see `strcpy`). -/
def createTypeObject (st : State) (name : String) : State × Ptr :=
  ({ st with objects := st.objects ++ [Object.mk name .OBJ_TYPE (.typeAttrs none)] },
   .addr st.objects.length)

/-- `createVariableObject`, lines 225-233, for a name `strcpy` stores whole: a name that fits
the `name` buffer of the object (see `strcpy`). -/
def createVariableObject (st : State) (name : String) : State × Ptr :=
  ({ st with
      objects := st.objects ++
        [Object.mk name .OBJ_VARIABLE (.varAttrs none st.symtab.currentScope)] },
   .addr st.objects.length)

/-- `createFunctionObject`, lines 241-250, for a name `strcpy` stores whole: a name that fits
the `name` buffer of the object (see `strcpy`). -/
def createFunctionObject (st : State) (name : String) : State × Ptr :=
  let obj := Ptr.addr st.objects.length
  let (st1, scope) := createScope st obj st.symtab.currentScope
  ({ st1 with
      objects := st1.objects ++ [Object.mk name .OBJ_FUNCTION (.funcAttrs [] none scope)] },
   obj)

/-- `createProcedureObject`, lines 258-267, for a name `strcpy` stores whole: a name that fits
the `name` buffer of the object (see `strcpy`). -/
def createProcedureObject (st : State) (name : String) : State × Ptr :=
  let obj := Ptr.addr st.objects.length
  let (st1, scope) := createScope st obj st.symtab.currentScope
  ({ st1 with
      objects := st1.objects ++ [Object.mk name .OBJ_PROCEDURE (.procAttrs [] scope)] },
   obj)

/-- `createParameterObject`, lines 277-286, for a name `strcpy` stores whole: a name that fits
the `name` buffer of the object (see `strcpy`). -/
def createParameterObject (st : State) (name : String) (kind : ParamKind) (owner : Ptr) :
    State × Ptr :=
  ({ st with
      objects := st.objects ++ [Object.mk name .OBJ_PARAMETER (.paramAttrs kind none owner)] },
   .addr st.objects.length)

/-- The call `strcpy(obj->name, name)` of the object factories (lines 180, 198,
213, 228, 244, 261, 280).  The destination is the buffer
`char name[MAX_IDENT_LEN + 1]` of the object; `MAX_IDENT_LEN` is a constant
of a header that is not under `src/` and is a parameter here.  A name of at
most `MAX_IDENT_LEN` characters (each one byte) is stored whole with its
terminator; a longer name is written past the end of the buffer, which is
undefined: the copy has no result. -/
def strcpy (MAX_IDENT_LEN : Nat) (name : String) : Option String :=
  if name.length ≤ MAX_IDENT_LEN then some name else none

/-- `createProgramObject`, lines 177-187, on any name: the copy of the name
into the buffer of the object, then the stores of `createProgramObject`. -/
def createProgramObject.inBuffer (MAX_IDENT_LEN : Nat) (st : State) (programName : String) :
    Option (State × Ptr) :=
  match strcpy MAX_IDENT_LEN programName with
  | some stored => some (createProgramObject st stored)
  | none => none

/-- `createFunctionObject`, lines 241-250, on any name: the copy of the name
into the buffer of the object, then the stores of `createFunctionObject`. -/
def createFunctionObject.inBuffer (MAX_IDENT_LEN : Nat) (st : State) (name : String) :
    Option (State × Ptr) :=
  match strcpy MAX_IDENT_LEN name with
  | some stored => some (createFunctionObject st stored)
  | none => none

/-- `createProcedureObject`, lines 258-267, on any name: the copy of the name
into the buffer of the object, then the stores of `createProcedureObject`. -/
def createProcedureObject.inBuffer (MAX_IDENT_LEN : Nat) (st : State) (name : String) :
    Option (State × Ptr) :=
  match strcpy MAX_IDENT_LEN name with
  | some stored => some (createProcedureObject st stored)
  | none => none

/-- The loop of `addObject`, lines 390-393, standing on a node that holds
`object` and is followed by `next`: walk to the node whose `next` is NULL and
hang the new node there. -/
def addObject.walk (obj : Ptr) (object : Ptr) : List Ptr → List Ptr
  | [] => [object, obj]
  | o :: next => object :: addObject.walk obj o next

/-- `addObject`, lines 380-395, on the chain `*objList`; the result is the
chain `*objList` holds afterwards. -/
def addObject (objList : List Ptr) (obj : Ptr) : List Ptr :=
  match objList with
  | [] => [obj]
  | object :: next => addObject.walk obj object next

/-- `findObject`, lines 404-412; `some Ptr.null` is the result NULL. -/
def findObject (st : State) (objList : List Ptr) (name : String) : Option Ptr :=
  match objList with
  | [] => some .null
  | object :: next =>
      match st.object object with
      | none => none
      | some o => if o.name = name then some object else findObject st next name

/-! ## Stores through a field of an object or of a scope -/

/-- `obj->funcAttrs->returnType = t`. -/
def setReturnType (st : State) (obj : Ptr) (t : Type_) : Option State :=
  match st.object obj with
  | some { name := n, kind := k, attrs := .funcAttrs paramList _ scope } =>
      st.setObject obj { name := n, kind := k, attrs := .funcAttrs paramList (some t) scope }
  | _ => none

/-- `param->paramAttrs->type = t`. -/
def setParamType (st : State) (param : Ptr) (t : Type_) : Option State :=
  match st.object param with
  | some { name := n, kind := k, attrs := .paramAttrs kind _ function } =>
      st.setObject param { name := n, kind := k, attrs := .paramAttrs kind (some t) function }
  | _ => none

/-- `addObject(&(owner->funcAttrs->paramList), obj)`. -/
def addFuncParam (st : State) (owner obj : Ptr) : Option State :=
  match st.object owner with
  | some { name := n, kind := k, attrs := .funcAttrs paramList returnType scope } =>
      st.setObject owner
        { name := n, kind := k, attrs := .funcAttrs (addObject paramList obj) returnType scope }
  | _ => none

/-- `addObject(&(owner->procAttrs->paramList), obj)`. -/
def addProcParam (st : State) (owner obj : Ptr) : Option State :=
  match st.object owner with
  | some { name := n, kind := k, attrs := .procAttrs paramList scope } =>
      st.setObject owner { name := n, kind := k, attrs := .procAttrs (addObject paramList obj) scope }
  | _ => none

/-- `addObject(&(scope->objList), obj)`. -/
def addScopeObject (st : State) (scope obj : Ptr) : Option State :=
  match st.scope scope with
  | some sc => st.setScope scope { sc with objList := addObject sc.objList obj }
  | none => none

/-- `addObject(&(symtab->globalObjectList), obj)`. -/
def addGlobalObject (st : State) (obj : Ptr) : State :=
  { st with symtab := { st.symtab with globalObjectList := addObject st.symtab.globalObjectList obj } }

/-- `obj->varAttrs->type = t`. -/
def setVarType (st : State) (obj : Ptr) (t : Type_) : Option State :=
  match st.object obj with
  | some { name := n, kind := k, attrs := .varAttrs _ scope } =>
      st.setObject obj { name := n, kind := k, attrs := .varAttrs (some t) scope }
  | _ => none

/-- `obj->typeAttrs->actualType = t`. -/
def setActualType (st : State) (obj : Ptr) (t : Type_) : Option State :=
  match st.object obj with
  | some { name := n, kind := k, attrs := .typeAttrs _ } =>
      st.setObject obj { name := n, kind := k, attrs := .typeAttrs (some t) }
  | _ => none

/-! ## The symbol-table controller -/

/-- `initSymTab`, lines 416-448.  The block `malloc` returns for `symtab` is
not cleared: its fields `program` and `currentScope` hold what the incoming
state holds there. -/
def initSymTab (st : State) : Option State := do
  let st := { st with symtab := { st.symtab with globalObjectList := [] } }
  let (st, obj) := createFunctionObject st "READC"
  let st ← setReturnType st obj makeCharType
  let st := addGlobalObject st obj
  let (st, obj) := createFunctionObject st "READI"
  let st ← setReturnType st obj makeIntType
  let st := addGlobalObject st obj
  let (st, obj) := createProcedureObject st "WRITEI"
  let (st, param) := createParameterObject st "i" .PARAM_VALUE obj
  let st ← setParamType st param makeIntType
  let st ← addProcParam st obj param
  let st := addGlobalObject st obj
  let (st, obj) := createProcedureObject st "WRITEC"
  let (st, param) := createParameterObject st "ch" .PARAM_VALUE obj
  let st ← setParamType st param makeCharType
  let st ← addProcParam st obj param
  let st := addGlobalObject st obj
  let (st, obj) := createProcedureObject st "WRITELN"
  let st := addGlobalObject st obj
  some { st with intType := some makeIntType, charType := some makeCharType }

/-- `enterBlock`, lines 458-460. -/
def enterBlock (st : State) (scope : Ptr) : State :=
  { st with symtab := { st.symtab with currentScope := scope } }

/-- `exitBlock`, lines 462-464. -/
def exitBlock (st : State) : Option State :=
  match st.scope st.symtab.currentScope with
  | some sc => some { st with symtab := { st.symtab with currentScope := sc.outer } }
  | none => none

/-- `declareObject`, lines 466-482. -/
def declareObject (st : State) (obj : Ptr) : Option State := do
  let o ← st.object obj
  let st1 ←
    if o.kind = .OBJ_PARAMETER then
      match st.scope st.symtab.currentScope with
      | none => none
      | some cur =>
          match st.object cur.owner with
          | none => none
          | some owner =>
              match owner.kind with
              | .OBJ_FUNCTION => addFuncParam st cur.owner obj
              | .OBJ_PROCEDURE => addProcParam st cur.owner obj
              | _ => some st
    else some st
  addScopeObject st1 st1.symtab.currentScope obj

/-- The chain `obj->funcAttrs->paramList` of a FUNCTION, `obj->procAttrs->paramList`
of a PROCEDURE; no other object has one. -/
def Object.paramList (o : Object) : Option (List Ptr) :=
  match o.kind, o.attrs with
  | .OBJ_FUNCTION, .funcAttrs paramList _ _ => some paramList
  | .OBJ_PROCEDURE, .procAttrs paramList _ => some paramList
  | _, _ => none

/-! ## Constant utility -/

/-- `makeIntConstant`, lines 113-119. -/
def makeIntConstant (i : Int) : ConstantValue :=
  { type := .TP_INT, intValue := some i, charValue := none }

/-- `makeCharConstant`, lines 127-133. -/
def makeCharConstant (ch : Char) : ConstantValue :=
  { type := .TP_CHAR, intValue := none, charValue := some ch }

/-- `duplicateConstantValue`, lines 141-151: the tag is copied, then the
member the tag selects; for another tag no member is written. -/
def duplicateConstantValue (v : ConstantValue) : ConstantValue :=
  if v.type = .TP_INT then
    { type := v.type, intValue := v.intValue, charValue := none }
  else if v.type = .TP_CHAR then
    { type := v.type, intValue := none, charValue := v.charValue }
  else
    { type := v.type, intValue := none, charValue := none }

/-! ## Releasing memory

Every call of `free` is recorded: a release function returns the list of the
blocks it frees, in the order of the calls.  The stores are not changed, the
code reads no block after freeing it.  A `Type` node is named by the tree it
roots (the nodes of one tree root different trees), an attribute block by its
object, an `ObjectNode` by the object pointer it holds and by the kind of
chain it belongs to: a parameter list, which `freeReferenceList` walks, or an
object list (of a scope, or the global one), which `freeObjectList` walks. -/

/-- A block handed to `free`. -/
inductive Freed where
  | typeNode (t : Type_)
  | constantValue (v : ConstantValue)
  | attrs (obj : Ptr)
  | object (obj : Ptr)
  | scope (scope : Ptr)
  | node (object : Ptr)
  | paramNode (object : Ptr)
  | symtab
  deriving DecidableEq, Repr

/-- `freeType`, lines 91-103. -/
def freeType : Type_ → List Freed
  | .int => [.typeNode .int]
  | .char => [.typeNode .char]
  | .array arraySize elementType =>
      freeType elementType ++ [.typeNode (.array arraySize elementType)]

/-- `freeReferenceList`, lines 363-372. -/
def freeReferenceList : List Ptr → List Freed
  | [] => []
  | object :: next => .paramNode object :: freeReferenceList next

mutual

/-- `freeObject`, lines 293-328.  The first argument bounds the depth of the
calls; the result is `none` when the bound is reached, when a pointer is
invalid, when an owned value was never assigned, or when the attribute block
is not the one of the kind. -/
def freeObject (st : State) : Nat → Ptr → Option (List Freed)
  | 0, _ => none
  | fuel + 1, obj =>
      match st.object obj with
      | none => none
      | some o =>
          let block : Option (List Freed) :=
            match o.kind, o.attrs with
            | .OBJ_CONSTANT, .constAttrs (some value) =>
                some [Freed.constantValue value, Freed.attrs obj]
            | .OBJ_TYPE, .typeAttrs (some actualType) =>
                some [Freed.typeNode actualType, Freed.attrs obj]
            | .OBJ_VARIABLE, .varAttrs (some type) _ =>
                some [Freed.typeNode type, Freed.attrs obj]
            | .OBJ_FUNCTION, .funcAttrs paramList (some returnType) scope =>
                match freeScope st fuel scope with
                | none => none
                | some freed =>
                    some (freeReferenceList paramList ++ freeType returnType ++ freed ++
                      [Freed.attrs obj])
            | .OBJ_PROCEDURE, .procAttrs paramList scope =>
                match freeScope st fuel scope with
                | none => none
                | some freed => some (freeReferenceList paramList ++ freed ++ [Freed.attrs obj])
            | .OBJ_PROGRAM, .progAttrs scope =>
                match freeScope st fuel scope with
                | none => none
                | some freed => some (freed ++ [Freed.attrs obj])
            | .OBJ_PARAMETER, .paramAttrs _ (some type) _ =>
                some (freeType type ++ [Freed.attrs obj])
            | _, _ => none
          match block with
          | none => none
          | some freed => some (freed ++ [Freed.object obj])

/-- `freeScope`, lines 335-339. -/
def freeScope (st : State) : Nat → Ptr → Option (List Freed)
  | 0, _ => none
  | fuel + 1, scope =>
      match st.scope scope with
      | none => none
      | some sc =>
          match freeObjectList st fuel sc.objList with
          | none => none
          | some freed => some (freed ++ [Freed.scope scope])

/-- `freeObjectList`, lines 346-356. -/
def freeObjectList (st : State) : Nat → List Ptr → Option (List Freed)
  | 0, _ => none
  | _ + 1, [] => some []
  | fuel + 1, object :: next =>
      match freeObject st fuel object with
      | none => none
      | some freed =>
          match freeObjectList st fuel next with
          | none => none
          | some rest => some (freed ++ [Freed.node object] ++ rest)

end

/-- `cleanSymTab`, lines 450-456. -/
def cleanSymTab (st : State) (fuel : Nat) : Option (List Freed) := do
  let program ← freeObject st fuel st.symtab.program
  let globals ← freeObjectList st fuel st.symtab.globalObjectList
  let intType ← st.intType
  let charType ← st.charType
  some (program ++ globals ++ [.symtab] ++ freeType intType ++ freeType charType)

/-! ## A routine and its parameters, as a caller declares them -/

/-- For every parameter in turn: `createParameterObject`, the assignment of its
type, `declareObject`. -/
def declareParameters (st : State) (owner : Ptr) :
    List (String × ParamKind × Type_) → Option State
  | [] => some st
  | (name, kind, type) :: rest =>
      match setParamType (createParameterObject st name kind owner).1
          (createParameterObject st name kind owner).2 type with
      | none => none
      | some st1 =>
          match declareObject st1 (createParameterObject st name kind owner).2 with
          | none => none
          | some st2 => declareParameters st2 owner rest

/-- The pointer `obj->funcAttrs->scope`, `obj->procAttrs->scope` or
`obj->progAttrs->scope` of a routine or program object. -/
def Object.scope (o : Object) : Option Ptr :=
  match o.kind, o.attrs with
  | .OBJ_FUNCTION, .funcAttrs _ _ scope => some scope
  | .OBJ_PROCEDURE, .procAttrs _ scope => some scope
  | .OBJ_PROGRAM, .progAttrs scope => some scope
  | _, _ => none

/-- A function built by `createFunctionObject`, given its return type, whose
scope is entered with `enterBlock` and whose parameters are then declared:
the final state and the pointer to the function. -/
def buildFunction (st : State) (name : String) (returnType : Type_)
    (params : List (String × ParamKind × Type_)) : Option (State × Ptr) :=
  match setReturnType (createFunctionObject st name).1 (createFunctionObject st name).2
      returnType with
  | none => none
  | some st1 =>
      match (st1.object (createFunctionObject st name).2).bind Object.scope with
      | none => none
      | some scope =>
          match declareParameters (enterBlock st1 scope) (createFunctionObject st name).2
              params with
          | none => none
          | some st2 => some (st2, (createFunctionObject st name).2)

/-- A procedure built by `createProcedureObject`, whose scope is entered with
`enterBlock` and whose parameters are then declared: the final state and the
pointer to the procedure. -/
def buildProcedure (st : State) (name : String)
    (params : List (String × ParamKind × Type_)) : Option (State × Ptr) :=
  match ((createProcedureObject st name).1.object (createProcedureObject st name).2).bind
      Object.scope with
  | none => none
  | some scope =>
      match declareParameters (enterBlock (createProcedureObject st name).1 scope)
          (createProcedureObject st name).2 params with
      | none => none
      | some st2 => some (st2, (createProcedureObject st name).2)

/-- The state in which the routine at address `fa`, with scope at address
`sa`, has the parameter list `pl`: the scope is the current one, is owned by
the routine and lists exactly the parameters, and every parameter is a
PARAMETER object of the routine with its type assigned. -/
def RoutineDeclared (st : State) (fa sa : Nat) (pl : List Ptr) : Prop :=
  st.symtab.currentScope = .addr sa ∧
  (∃ outer, st.scopes[sa]? = some (Scope.mk pl (.addr fa) outer)) ∧
  ((∃ name returnType, st.objects[fa]? =
      some (Object.mk name .OBJ_FUNCTION (.funcAttrs pl (some returnType) (.addr sa)))) ∨
   (∃ name, st.objects[fa]? = some (Object.mk name .OBJ_PROCEDURE (.procAttrs pl (.addr sa))))) ∧
  (∀ p ∈ pl, ∃ a name kind type, p = .addr a ∧ a ≠ fa ∧
      st.objects[a]? =
        some (Object.mk name .OBJ_PARAMETER (.paramAttrs kind (some type) (.addr fa)))) ∧
  pl.Nodup

/-- The nodes of a type tree, outermost first, each named by the tree it
roots. -/
def Type_.nodes : Type_ → List Type_
  | .int => [.int]
  | .char => [.char]
  | .array arraySize elementType => .array arraySize elementType :: elementType.nodes

/-! ## `duplicateType` on a store of `Type` nodes -/

/-- Modelled from the spec: `struct Type_` of `symtab.h` (not under `src/`) as
it lies in memory: the class, the array size and the pointer to the element
type; a field that was never assigned is `none`. -/
structure TypeNode where
  typeClass : TypeClass
  arraySize : Option Int
  elementType : Option Ptr
  deriving DecidableEq, Repr

/-- The type tree that lies at `type` in a store of `Type` nodes, followed
through at most `fuel` nodes: the tree the by-value functions work on. -/
def readType (types : List TypeNode) : Nat → Ptr → Option Type_
  | 0, _ => none
  | _ + 1, .null => none
  | fuel + 1, .addr a =>
      match types[a]? with
      | none => none
      | some node =>
          match node.typeClass with
          | .TP_INT => some .int
          | .TP_CHAR => some .char
          | .TP_ARRAY =>
              match node.arraySize, node.elementType with
              | some arraySize, some elementType =>
                  match readType types fuel elementType with
                  | some element => some (.array arraySize element)
                  | none => none
              | _, _ => none

/-- `duplicateType`, lines 50-61, on a store of `Type` nodes: `malloc` takes
the first address past the store for the new node, the class is copied, and
for an array the size is copied and the element type duplicated in turn,
after the new node was allocated.  The result is the store afterwards and the
pointer to the new node; the first argument bounds the depth of the calls. -/
def duplicateType (types : List TypeNode) : Nat → Ptr → Option (List TypeNode × Ptr)
  | 0, _ => none
  | _ + 1, .null => none
  | fuel + 1, .addr a =>
      match types[a]? with
      | none => none
      | some type =>
          if type.typeClass = .TP_ARRAY then
            match type.elementType with
            | none => none
            | some elementType =>
                match duplicateType (types ++ [TypeNode.mk type.typeClass none none]) fuel
                    elementType with
                | none => none
                | some (types1, element) =>
                    some (types1.set types.length
                      (TypeNode.mk type.typeClass type.arraySize (some element)),
                      .addr types.length)
          else some (types ++ [TypeNode.mk type.typeClass none none], .addr types.length)

/-- The nodes of a copy of the tree `t` that is allocated from the address
`base` on, outermost node first: every array node points to the next
address. -/
def Type_.layout : Type_ → Nat → List TypeNode
  | .int, _ => [TypeNode.mk .TP_INT none none]
  | .char, _ => [TypeNode.mk .TP_CHAR none none]
  | .array arraySize elementType, base =>
      TypeNode.mk .TP_ARRAY (some arraySize) (some (.addr (base + 1))) ::
        elementType.layout (base + 1)

/-! ## `Bai2/check_similar.c` -/

/-- A `FILE*` open for reading: the bytes not read yet and the end-of-file
indicator of the stream. -/
structure Stream where
  rest : List (Fin 256)
  eof : Bool
  deriving DecidableEq, Repr

/-- The stream `fopen` returns on a file with the given contents. -/
def Stream.opened (contents : List (Fin 256)) : Stream :=
  { rest := contents, eof := false }

/-- The constant `EOF` of `stdio.h`. -/
def EOF : Int := -1

/-- The library's `fgetc`: the next byte as a value 0..255, or `EOF` when no
byte is left, in which case the end-of-file indicator is set. -/
def fgetc (file : Stream) : Int × Stream :=
  match file.rest with
  | [] => (EOF, { file with eof := true })
  | b :: rest => ((b.val : Int), { file with rest := rest })

/-- The library's `feof`: the end-of-file indicator. -/
def feof (file : Stream) : Bool := file.eof

/-- The conversion of an `int` to `char` in `ch1 = fgetc(file1)`, with `char`
a signed 8-bit integer. -/
def toChar (c : Int) : Int := (c + 128) % 256 - 128

/-- `areFilesIdentical`, lines 4-19. -/
def areFilesIdentical (file1 file2 : Stream) : Int :=
  if (toChar (fgetc file1).1) ≠ EOF then
    if (toChar (fgetc file2).1) ≠ EOF then
      if toChar (fgetc file1).1 ≠ toChar (fgetc file2).1 then 0
      else areFilesIdentical (fgetc file1).2 (fgetc file2).2
    else if feof (fgetc file1).2 && feof (fgetc file2).2 then 1 else 0
  else if feof (fgetc file1).2 && feof file2 then 1 else 0
termination_by file1.rest.length
decreasing_by
  rename_i h _ _
  cases hr : file1.rest with
  | nil => simp [fgetc, hr, toChar, EOF] at h
  | cons b rest => simp [fgetc, hr]

/-! ## `test_parser/incompleted/test.c` -/

/-- The library's `fgets` on a file given by the lines not read yet, each
shorter than the buffer: the next line, or NULL (`none`) when none is left. -/
def fgets (fp : List String) : Option String × List String :=
  match fp with
  | [] => (none, [])
  | line :: rest => (some line, rest)

/-- The loop of `compare_files`, lines 25-34: the value of `diff` and the
two files when the loop is left. -/
def compare_files.loop : List String → List String → Int × List String × List String
  | [], fp2 => (0, (fgets []).2, fp2)
  | line1 :: fp1, [] => (0, (fgets (line1 :: fp1)).2, (fgets []).2)
  | line1 :: fp1, line2 :: fp2 =>
      if line1 ≠ line2 then (1, fp1, fp2) else compare_files.loop fp1 fp2

/-- `compare_files`, lines 13-44; a file is the result of `fopen`, `none`
when the file cannot be opened.  The text printed is left out. -/
def compare_files (file1 file2 : Option (List String)) : Int :=
  match file1, file2 with
  | some fp1, some fp2 =>
      match compare_files.loop fp1 fp2 with
      | (diff, fp1, fp2) =>
          if (fgets fp1).1 ≠ none then 1
          else if (fgets fp2).1 ≠ none then 1
          else diff
  | _, _ => -1

/-! ## Sample states -/

/-- A symbol table with nothing allocated and no current scope. -/
def emptyState : State :=
  { symtab := { program := .null, currentScope := .null, globalObjectList := [] }
    intType := none
    charType := none
    objects := []
    scopes := [] }

/-- Two variables, both named `x`, at addresses 0 and 1. -/
def twoVariables : State :=
  (createVariableObject (createVariableObject emptyState "x").1 "x").1

/-- A function `f` whose scope (address 0) has been entered, and a value
parameter `n` created for it: the state and the pointer to the parameter. -/
def parameterScenario : State × Ptr :=
  let created := createFunctionObject emptyState "f"
  createParameterObject (enterBlock created.1 (.addr 0)) "n" .PARAM_VALUE created.2

/-- A variable `x` created in the empty symbol table: the state and the
pointer to the variable. -/
def variableScenario : State × Ptr :=
  createVariableObject emptyState "x"

/-- A program `P` whose scope (address 0) has been entered, and a value
parameter `n` created with the program as owner: the state and the pointer
to the parameter. -/
def programScenario : State × Ptr :=
  let created := createProgramObject emptyState "P"
  createParameterObject (enterBlock created.1 (.addr 0)) "n" .PARAM_VALUE created.2

/-- The state `exitBlock` returns in `parameterScenario`. -/
def parameterScenarioExited : State :=
  { parameterScenario.1 with
    symtab := { parameterScenario.1.symtab with currentScope := .null } }

/-- The state `declareObject` returns in `parameterScenario` for its
parameter. -/
def parameterScenarioDeclared : State :=
  { parameterScenario.1 with
    objects := [Object.mk "f" .OBJ_FUNCTION (.funcAttrs [.addr 1] none (.addr 0)),
      Object.mk "n" .OBJ_PARAMETER (.paramAttrs .PARAM_VALUE none (.addr 0))]
    scopes := [Scope.mk [.addr 1] (.addr 0) .null] }

/-- A store that holds the type ARRAY(3, INT): the array node at address 0,
its element type at address 1. -/
def arrayOfIntStore : List TypeNode :=
  [TypeNode.mk .TP_ARRAY (some 3) (some (.addr 1)), TypeNode.mk .TP_INT none none]

/-! ## Properties of the type utilities -/

theorem compareType_eq_ite (a : Type_) : ∀ b : Type_, compareType a b = if a = b then 1 else 0 := by
  induction a with
  | int => intro b; cases b <;> simp [compareType, Type_.typeClass]
  | char => intro b; cases b <;> simp [compareType, Type_.typeClass]
  | array n e ih =>
      intro b
      cases b with
      | int => simp [compareType, Type_.typeClass]
      | char => simp [compareType, Type_.typeClass]
      | array m f =>
          by_cases hnm : n = m
          · simp [compareType, Type_.typeClass, hnm, ih f]
          · simp [compareType, Type_.typeClass, hnm]

/-- C1: `compareType a b` is 1 exactly when `a` and `b` are structurally equal
(both INT, or both CHAR, or both ARRAY with the same size and element types
that compare equal in turn) and 0 otherwise; two arrays over the same element
type compare equal only when the sizes agree, and two arrays of the same size
only when the element types agree. -/
theorem compareType_structural (a b : Type_) :
    compareType a b = (if a = b then 1 else 0) ∧
    (compareType a b = 1 ↔ a = b) ∧
    (compareType a b = 1 ↔
      (a = .int ∧ b = .int) ∨ (a = .char ∧ b = .char) ∨
      ∃ n e f, a = .array n e ∧ b = .array n f ∧ compareType e f = 1) ∧
    (compareType a b = 1 ∨ compareType a b = 0) ∧
    (∀ (n m : Int) (e : Type_),
      compareType (.array n e) (.array m e) = if n = m then 1 else 0) ∧
    (∀ (n : Int) (e f : Type_),
      compareType (.array n e) (.array n f) = if e = f then 1 else 0) := by
  refine ⟨compareType_eq_ite a b, ?_, ?_, ?_, ?_, ?_⟩
  · rw [compareType_eq_ite]; by_cases h : a = b <;> simp [h]
  · rw [compareType_eq_ite]
    constructor
    · intro h
      have hab : a = b := by
        by_contra hne
        simp [hne] at h
      subst hab
      cases a with
      | int => exact Or.inl ⟨rfl, rfl⟩
      | char => exact Or.inr (Or.inl ⟨rfl, rfl⟩)
      | array n e => exact Or.inr (Or.inr ⟨n, e, e, rfl, rfl, by simp [compareType_eq_ite]⟩)
    · rintro (⟨rfl, rfl⟩ | ⟨rfl, rfl⟩ | ⟨n, e, f, rfl, rfl, h⟩)
      · simp
      · simp
      · rw [compareType_eq_ite] at h
        have hef : e = f := by
          by_contra hne
          simp [hne] at h
        simp [hef]
  · rw [compareType_eq_ite]; by_cases h : a = b <;> simp [h]
  · intro n m e; rw [compareType_eq_ite]; by_cases h : n = m <;> simp [h]
  · intro n e f; rw [compareType_eq_ite]; by_cases h : e = f <;> simp [h]

/-! ## Properties of the object lists -/

theorem addObject_walk_eq (obj : Ptr) : ∀ (next : List Ptr) (object : Ptr),
    addObject.walk obj object next = object :: next ++ [obj] := by
  intro next
  induction next with
  | nil => intro object; rfl
  | cons o rest ih => intro object; simp [addObject.walk, ih o]

theorem addObject_eq_append (objList : List Ptr) (obj : Ptr) :
    addObject objList obj = objList ++ [obj] := by
  cases objList with
  | nil => rfl
  | cons object next => simp [addObject, addObject_walk_eq]

/-- C4: `addObject` leaves the list equal to the old list followed by `obj`:
the length grows by one, `obj` is the last element, and every position of the
old list holds the object it held before. -/
theorem addObject_appends (objList : List Ptr) (obj : Ptr) :
    addObject objList obj = objList ++ [obj] ∧
    (addObject objList obj).length = objList.length + 1 ∧
    (addObject objList obj).getLast? = some obj ∧
    (addObject objList obj).take objList.length = objList ∧
    (∀ i : Fin objList.length, (addObject objList obj)[i.val]? = some (objList.get i)) := by
  rw [addObject_eq_append]
  refine ⟨rfl, by simp, by simp, by simp, ?_⟩
  intro i
  rw [List.getElem?_append_left i.isLt]
  simp

theorem findObject_cons_hit (st : State) (q : Ptr) (rest : List Ptr) (name : String) (o : Object)
    (h : st.object q = some o) (hn : o.name = name) :
    findObject st (q :: rest) name = some q := by
  simp [findObject, h, hn]

theorem findObject_cons_miss (st : State) (q : Ptr) (rest : List Ptr) (name : String) (o : Object)
    (h : st.object q = some o) (hn : o.name ≠ name) :
    findObject st (q :: rest) name = findObject st rest name := by
  simp [findObject, h, hn]

theorem object_null (st : State) : st.object .null = none := rfl

theorem findObject_append_found (st : State) (name : String) (r : Ptr) (more : List Ptr) :
    ∀ objList : List Ptr, findObject st objList name = some r → r ≠ .null →
      findObject st (objList ++ more) name = some r := by
  intro objList
  induction objList with
  | nil => intro h hr; simp [findObject] at h; exact absurd h.symm hr
  | cons q rest ih =>
      intro h hr
      cases hq : st.object q with
      | none => simp [findObject, hq] at h
      | some o =>
          by_cases hn : o.name = name
          · rw [findObject_cons_hit st q rest name o hq hn] at h
            rw [List.cons_append, findObject_cons_hit st q _ name o hq hn]
            exact h
          · rw [findObject_cons_miss st q rest name o hq hn] at h
            rw [List.cons_append, findObject_cons_miss st q _ name o hq hn]
            exact ih h hr

theorem findObject_append_missed (st : State) (name : String) (more : List Ptr) :
    ∀ objList : List Ptr,
      (∀ p ∈ objList, (st.object p).isSome) →
      (∀ p ∈ objList, ∀ o, st.object p = some o → o.name ≠ name) →
      findObject st (objList ++ more) name = findObject st more name := by
  intro objList
  induction objList with
  | nil => intro _ _; rfl
  | cons q rest ih =>
      intro hv hm
      have hq := hv q (List.mem_cons_self q rest)
      cases hqo : st.object q with
      | none => simp [hqo] at hq
      | some o =>
          rw [List.cons_append,
            findObject_cons_miss st q _ name o hqo (hm q (List.mem_cons_self q rest) o hqo)]
          exact ih (fun p hp => hv p (List.mem_cons_of_mem q hp))
            (fun p hp => hm p (List.mem_cons_of_mem q hp))

theorem findObject_first (st : State) (name : String) :
    ∀ objList : List Ptr, (∀ p ∈ objList, (st.object p).isSome) →
      ∃ r, findObject st objList name = some r ∧
        (r = .null ↔ ∀ p ∈ objList, ∀ o, st.object p = some o → o.name ≠ name) ∧
        (r ≠ .null → ∃ before after o, objList = before ++ r :: after ∧
          st.object r = some o ∧ o.name = name ∧
          ∀ p ∈ before, ∀ o1, st.object p = some o1 → o1.name ≠ name) := by
  intro objList
  induction objList with
  | nil =>
      intro _
      exact ⟨.null, rfl, by simp, fun h => absurd rfl h⟩
  | cons q rest ih =>
      intro hv
      have hq := hv q (List.mem_cons_self q rest)
      cases hqo : st.object q with
      | none => simp [hqo] at hq
      | some o =>
          have hqnull : q ≠ .null := by
            intro h; rw [h, object_null] at hqo; cases hqo
          by_cases hn : o.name = name
          · refine ⟨q, findObject_cons_hit st q rest name o hqo hn, ?_, ?_⟩
            · constructor
              · intro h; exact absurd h hqnull
              · intro h; exact absurd hn (h q (List.mem_cons_self q rest) o hqo)
            · intro _
              exact ⟨[], rest, o, rfl, hqo, hn, by simp⟩
          · obtain ⟨r, hr, hnull, hfound⟩ := ih (fun p hp => hv p (List.mem_cons_of_mem q hp))
            refine ⟨r, ?_, ?_, ?_⟩
            · rw [findObject_cons_miss st q rest name o hqo hn]; exact hr
            · rw [hnull]
              constructor
              · intro h p hp o1 ho1
                rcases List.mem_cons.mp hp with rfl | hp
                · rw [hqo] at ho1; cases ho1; exact hn
                · exact h p hp o1 ho1
              · intro h p hp; exact h p (List.mem_cons_of_mem q hp)
            · intro hrn
              obtain ⟨before, after, o1, hl, ho1, hn1, hbefore⟩ := hfound hrn
              refine ⟨q :: before, after, o1, by rw [hl]; rfl, ho1, hn1, ?_⟩
              intro p hp o2 ho2
              rcases List.mem_cons.mp hp with rfl | hp
              · rw [hqo] at ho2; cases ho2; exact hn
              · exact hbefore p hp o2 ho2

/-- C3: on a list of valid objects `findObject` returns the first object of
the list whose name equals `name`, and NULL exactly when no object of the list
has that name; once an object is found, appending another object with
`addObject` does not change the result, and of two objects with the searched
name added one after the other the one added first is returned. -/
theorem findObject_first_match (st : State) (objList : List Ptr) (name : String)
    (hvalid : ∀ p ∈ objList, (st.object p).isSome) :
    ∃ r, findObject st objList name = some r ∧
      (r = .null ↔ ∀ p ∈ objList, ∀ o, st.object p = some o → o.name ≠ name) ∧
      (r ≠ .null → ∃ before after o, objList = before ++ r :: after ∧
        st.object r = some o ∧ o.name = name ∧
        ∀ p ∈ before, ∀ o1, st.object p = some o1 → o1.name ≠ name) ∧
      (r ≠ .null → ∀ obj, findObject st (addObject objList obj) name = some r) ∧
      (r = .null → ∀ a b oa, st.object a = some oa → oa.name = name →
        findObject st (addObject objList a) name = some a ∧
        findObject st (addObject (addObject objList a) b) name = some a) := by
  obtain ⟨r, hr, hnull, hfound⟩ := findObject_first st name objList hvalid
  refine ⟨r, hr, hnull, hfound, ?_, ?_⟩
  · intro hrn obj
    rw [addObject_eq_append]
    exact findObject_append_found st name r [obj] objList hr hrn
  · intro hrn a b oa ha hna
    have hmiss := hnull.mp hrn
    have hone : findObject st (addObject objList a) name = some a := by
      rw [addObject_eq_append, findObject_append_missed st name [a] objList hvalid hmiss]
      exact findObject_cons_hit st a [] name oa ha hna
    refine ⟨hone, ?_⟩
    rw [addObject_eq_append (addObject objList a) b]
    refine findObject_append_found st name a [b] _ hone ?_
    intro h; rw [h, object_null] at ha; cases ha

theorem findObject_first_match_witness :
    (∀ p ∈ [Ptr.addr 0, Ptr.addr 1], (twoVariables.object p).isSome) ∧
    ∃ r, findObject twoVariables [Ptr.addr 0, Ptr.addr 1] "x" = some r ∧
      (r = .null ↔ ∀ p ∈ [Ptr.addr 0, Ptr.addr 1], ∀ o,
        twoVariables.object p = some o → o.name ≠ "x") ∧
      (r ≠ .null → ∃ before after o, [Ptr.addr 0, Ptr.addr 1] = before ++ r :: after ∧
        twoVariables.object r = some o ∧ o.name = "x" ∧
        ∀ p ∈ before, ∀ o1, twoVariables.object p = some o1 → o1.name ≠ "x") ∧
      (r ≠ .null → ∀ obj,
        findObject twoVariables (addObject [Ptr.addr 0, Ptr.addr 1] obj) "x" = some r) ∧
      (r = .null → ∀ a b oa, twoVariables.object a = some oa → oa.name = "x" →
        findObject twoVariables (addObject [Ptr.addr 0, Ptr.addr 1] a) "x" = some a ∧
        findObject twoVariables (addObject (addObject [Ptr.addr 0, Ptr.addr 1] a) b) "x" = some a) :=
  ⟨by decide, findObject_first_match twoVariables [Ptr.addr 0, Ptr.addr 1] "x" (by decide)⟩

/-! ## Properties of the stores -/

theorem getElem?_append_add {α : Type} (l xs : List α) (k : Nat) :
    (l ++ xs)[l.length + k]? = xs[k]? := by
  rw [List.getElem?_append_right (Nat.le_add_right _ _)]
  simp

theorem getElem?_append_length {α : Type} (l xs : List α) :
    (l ++ xs)[l.length]? = xs[0]? := by
  have h := getElem?_append_add l xs 0
  simpa using h

theorem set_append_add {α : Type} (l xs : List α) (k : Nat) (v : α) :
    (l ++ xs).set (l.length + k) v = l ++ xs.set k v := by
  rw [List.set_append_right _ _ (Nat.le_add_right _ _)]
  simp

theorem set_append_length {α : Type} (l xs : List α) (v : α) :
    (l ++ xs).set l.length v = l ++ xs.set 0 v := by
  simp

/-! ## Properties of the controller -/

/-- The state `initSymTab` produces, written out: seven objects and five
scopes are allocated past the incoming stores. -/
theorem initSymTab_eq (st : State) :
    initSymTab st = some
      { symtab :=
          { program := st.symtab.program
            currentScope := st.symtab.currentScope
            globalObjectList :=
              [.addr st.objects.length, .addr (st.objects.length + 1), .addr (st.objects.length + 2),
               .addr (st.objects.length + 4), .addr (st.objects.length + 6)] }
        intType := some .int
        charType := some .char
        objects := st.objects ++
          [Object.mk "READC" .OBJ_FUNCTION (.funcAttrs [] (some .char) (.addr st.scopes.length)),
           Object.mk "READI" .OBJ_FUNCTION (.funcAttrs [] (some .int) (.addr (st.scopes.length + 1))),
           Object.mk "WRITEI" .OBJ_PROCEDURE
             (.procAttrs [.addr (st.objects.length + 3)] (.addr (st.scopes.length + 2))),
           Object.mk "i" .OBJ_PARAMETER
             (.paramAttrs .PARAM_VALUE (some .int) (.addr (st.objects.length + 2))),
           Object.mk "WRITEC" .OBJ_PROCEDURE
             (.procAttrs [.addr (st.objects.length + 5)] (.addr (st.scopes.length + 3))),
           Object.mk "ch" .OBJ_PARAMETER
             (.paramAttrs .PARAM_VALUE (some .char) (.addr (st.objects.length + 4))),
           Object.mk "WRITELN" .OBJ_PROCEDURE (.procAttrs [] (.addr (st.scopes.length + 4)))]
        scopes := st.scopes ++
          [Scope.mk [] (.addr st.objects.length) st.symtab.currentScope,
           Scope.mk [] (.addr (st.objects.length + 1)) st.symtab.currentScope,
           Scope.mk [] (.addr (st.objects.length + 2)) st.symtab.currentScope,
           Scope.mk [] (.addr (st.objects.length + 4)) st.symtab.currentScope,
           Scope.mk [] (.addr (st.objects.length + 6)) st.symtab.currentScope] } := by
  simp [initSymTab, createFunctionObject, createProcedureObject, createParameterObject, createScope,
    setReturnType, setParamType, addProcParam, addGlobalObject, addObject, addObject.walk,
    State.object, State.setObject, makeIntType, makeCharType, Nat.add_assoc,
    getElem?_append_add, getElem?_append_length, set_append_add, set_append_length,
    List.getElem?_cons_zero, List.getElem?_cons_succ, List.set_cons_zero, List.set_cons_succ,
    -List.getElem?_eq_getElem]

/-- C5: `initSymTab` returns, and afterwards the global object list has
exactly five entries, named READC, READI, WRITEI, WRITEC, WRITELN and of
kinds FUNCTION, FUNCTION, PROCEDURE, PROCEDURE, PROCEDURE, in that order. -/
theorem initSymTab_globalObjectList (st : State) :
    ∃ st1, initSymTab st = some st1 ∧
      st1.symtab.globalObjectList.length = 5 ∧
      st1.symtab.globalObjectList.map
          (fun p => (st1.object p).map (fun o => (o.name, o.kind))) =
        [some ("READC", ObjectKind.OBJ_FUNCTION), some ("READI", ObjectKind.OBJ_FUNCTION),
         some ("WRITEI", ObjectKind.OBJ_PROCEDURE), some ("WRITEC", ObjectKind.OBJ_PROCEDURE),
         some ("WRITELN", ObjectKind.OBJ_PROCEDURE)] := by
  refine ⟨_, initSymTab_eq st, rfl, ?_⟩
  simp [State.object, getElem?_append_add, getElem?_append_length,
    List.getElem?_cons_zero, List.getElem?_cons_succ, -List.getElem?_eq_getElem]

/-- C6: after `initSymTab` the five built-in routines have these signatures:
READC returns CHAR and READI returns INT, both without parameters; WRITEI has
exactly one parameter, passed by value, of type INT, whose owner is WRITEI;
WRITEC has exactly one parameter, passed by value, of type CHAR, whose owner
is WRITEC; WRITELN has no parameter. -/
theorem initSymTab_signatures (st : State) :
    ∃ st1 readc readi writei writec writeln,
      initSymTab st = some st1 ∧
      st1.symtab.globalObjectList = [readc, readi, writei, writec, writeln] ∧
      (∃ scope, st1.object readc =
        some (Object.mk "READC" .OBJ_FUNCTION (.funcAttrs [] (some .char) scope))) ∧
      (∃ scope, st1.object readi =
        some (Object.mk "READI" .OBJ_FUNCTION (.funcAttrs [] (some .int) scope))) ∧
      (∃ scope param,
        st1.object writei = some (Object.mk "WRITEI" .OBJ_PROCEDURE (.procAttrs [param] scope)) ∧
        st1.object param =
          some (Object.mk "i" .OBJ_PARAMETER (.paramAttrs .PARAM_VALUE (some .int) writei))) ∧
      (∃ scope param,
        st1.object writec = some (Object.mk "WRITEC" .OBJ_PROCEDURE (.procAttrs [param] scope)) ∧
        st1.object param =
          some (Object.mk "ch" .OBJ_PARAMETER (.paramAttrs .PARAM_VALUE (some .char) writec))) ∧
      (∃ scope, st1.object writeln =
        some (Object.mk "WRITELN" .OBJ_PROCEDURE (.procAttrs [] scope))) := by
  refine ⟨_, _, _, _, _, _, initSymTab_eq st, rfl,
    ⟨.addr st.scopes.length, ?_⟩, ⟨.addr (st.scopes.length + 1), ?_⟩,
    ⟨.addr (st.scopes.length + 2), .addr (st.objects.length + 3), ?_, ?_⟩,
    ⟨.addr (st.scopes.length + 3), .addr (st.objects.length + 5), ?_, ?_⟩,
    ⟨.addr (st.scopes.length + 4), ?_⟩⟩ <;>
  simp [State.object, getElem?_append_add, getElem?_append_length,
    List.getElem?_cons_zero, List.getElem?_cons_succ, -List.getElem?_eq_getElem]

theorem lt_length_of_getElem? {α : Type} {l : List α} {n : Nat} {a : α} (h : l[n]? = some a) :
    n < l.length := by
  by_contra hn
  rw [List.getElem?_eq_none (Nat.le_of_not_lt hn)] at h
  cases h

/-- C7: when `p` is a PARAMETER object and the owner of the current scope is
a FUNCTION or PROCEDURE object `f` with parameter list `pl`, `declareObject p`
returns, and afterwards the parameter list of `f` is `pl` followed by `p` and
the object list of the current scope is its old object list followed by
`p`. -/
theorem declareObject_parameter (st : State) (p : Ptr) (po : Object) (sc : Scope) (f : Object)
    (pl : List Ptr)
    (hp : st.object p = some po) (hkind : po.kind = .OBJ_PARAMETER)
    (hcur : st.scope st.symtab.currentScope = some sc)
    (hf : st.object sc.owner = some f)
    (hpl : f.paramList = some pl) :
    ∃ st1 f1 sc1, declareObject st p = some st1 ∧
      st1.symtab = st.symtab ∧
      st1.object sc.owner = some f1 ∧ f1.paramList = some (pl ++ [p]) ∧
      f1.kind = f.kind ∧ f1.name = f.name ∧
      st1.scope st.symtab.currentScope = some sc1 ∧ sc1.objList = sc.objList ++ [p] ∧
      sc1.owner = sc.owner ∧ sc1.outer = sc.outer := by
  cases hcs : st.symtab.currentScope with
  | null => rw [hcs] at hcur; cases hcur
  | addr sa =>
    cases p with
    | null => cases hp
    | addr pa =>
      have hpa : st.objects[pa]? = some po := hp
      cases hown : sc.owner with
      | null => rw [hown] at hf; cases hf
      | addr fa =>
        rw [hcs] at hcur
        rw [hown] at hf
        have hsa : st.scopes[sa]? = some sc := hcur
        have hfa : st.objects[fa]? = some f := hf
        have hsalt := lt_length_of_getElem? hsa
        have hfalt := lt_length_of_getElem? hfa
        rcases f with ⟨n, k, attrs⟩
        cases k <;> cases attrs <;> simp [Object.paramList] at hpl
        · subst hpl
          simp [declareObject, hpa, hkind, hcs, State.scope, hsa, hown, State.object, hfa,
            addFuncParam, State.setObject, hfalt, addScopeObject, State.setScope, hsalt,
            addObject_eq_append, Object.paramList]
        · subst hpl
          simp [declareObject, hpa, hkind, hcs, State.scope, hsa, hown, State.object, hfa,
            addProcParam, State.setObject, hfalt, addScopeObject, State.setScope, hsalt,
            addObject_eq_append, Object.paramList]

theorem declareObject_parameter_witness :
    (parameterScenario.1.object parameterScenario.2 =
        some (Object.mk "n" .OBJ_PARAMETER (.paramAttrs .PARAM_VALUE none (.addr 0))) ∧
      (Object.mk "n" .OBJ_PARAMETER (.paramAttrs .PARAM_VALUE none (.addr 0))).kind =
        .OBJ_PARAMETER ∧
      parameterScenario.1.scope parameterScenario.1.symtab.currentScope =
        some (Scope.mk [] (.addr 0) .null) ∧
      parameterScenario.1.object (Scope.mk [] (.addr 0) .null).owner =
        some (Object.mk "f" .OBJ_FUNCTION (.funcAttrs [] none (.addr 0))) ∧
      (Object.mk "f" .OBJ_FUNCTION (.funcAttrs [] none (.addr 0))).paramList = some []) ∧
    ∃ st1 f1 sc1, declareObject parameterScenario.1 parameterScenario.2 = some st1 ∧
      st1.symtab = parameterScenario.1.symtab ∧
      st1.object (Scope.mk [] (.addr 0) .null).owner = some f1 ∧
      f1.paramList = some ([] ++ [parameterScenario.2]) ∧
      f1.kind = (Object.mk "f" .OBJ_FUNCTION (.funcAttrs [] none (.addr 0))).kind ∧
      f1.name = (Object.mk "f" .OBJ_FUNCTION (.funcAttrs [] none (.addr 0))).name ∧
      st1.scope parameterScenario.1.symtab.currentScope = some sc1 ∧
      sc1.objList = (Scope.mk [] (.addr 0) .null).objList ++ [parameterScenario.2] ∧
      sc1.owner = (Scope.mk [] (.addr 0) .null).owner ∧
      sc1.outer = (Scope.mk [] (.addr 0) .null).outer :=
  ⟨⟨by decide, by decide, by decide, by decide, by decide⟩,
   declareObject_parameter parameterScenario.1 parameterScenario.2
     (Object.mk "n" .OBJ_PARAMETER (.paramAttrs .PARAM_VALUE none (.addr 0)))
     (Scope.mk [] (.addr 0) .null)
     (Object.mk "f" .OBJ_FUNCTION (.funcAttrs [] none (.addr 0))) []
     (by decide) (by decide) (by decide) (by decide) (by decide)⟩

/-- C8: for the scope `s` that `createScope owner outer` returns with `outer`
the current scope, and a VARIABLE object `x`, the sequence `enterBlock s`,
`declareObject x`, `exitBlock` returns and leaves `currentScope` at the value
it had before `enterBlock`, and `findObject` on the object list of `s` with
the name of `x` returns `x`. -/
theorem enterBlock_declareObject_exitBlock (st : State) (owner x : Ptr) (xo : Object)
    (hx : st.object x = some xo) (hkind : xo.kind = .OBJ_VARIABLE) :
    ∃ st3 st4 sc,
      declareObject
          (enterBlock (createScope st owner st.symtab.currentScope).1
            (createScope st owner st.symtab.currentScope).2) x = some st3 ∧
      exitBlock st3 = some st4 ∧
      (createScope st owner st.symtab.currentScope).1.symtab.currentScope =
        st.symtab.currentScope ∧
      st4.symtab.currentScope = st.symtab.currentScope ∧
      st4.scope (createScope st owner st.symtab.currentScope).2 = some sc ∧
      sc.objList = [x] ∧
      findObject st4 sc.objList xo.name = some x := by
  cases x with
  | null => cases hx
  | addr xa =>
    have hxa : st.objects[xa]? = some xo := hx
    refine ⟨{ st with
        symtab := { st.symtab with currentScope := .addr st.scopes.length }
        scopes := st.scopes ++ [Scope.mk [.addr xa] owner st.symtab.currentScope] },
      { st with scopes := st.scopes ++ [Scope.mk [.addr xa] owner st.symtab.currentScope] },
      Scope.mk [.addr xa] owner st.symtab.currentScope, ?_, ?_, rfl, rfl, ?_, rfl, ?_⟩
    · simp [declareObject, enterBlock, createScope, State.object, hxa, hkind, addScopeObject,
        State.scope, State.setScope, addObject]
    · simp [exitBlock, State.scope]
    · simp [createScope, State.scope]
    · simp [findObject, State.object, hxa]

theorem enterBlock_declareObject_exitBlock_witness :
    (variableScenario.1.object variableScenario.2 =
        some (Object.mk "x" .OBJ_VARIABLE (.varAttrs none .null)) ∧
      (Object.mk "x" .OBJ_VARIABLE (.varAttrs none .null)).kind = .OBJ_VARIABLE) ∧
    ∃ st3 st4 sc,
      declareObject
          (enterBlock
            (createScope variableScenario.1 .null variableScenario.1.symtab.currentScope).1
            (createScope variableScenario.1 .null variableScenario.1.symtab.currentScope).2)
          variableScenario.2 = some st3 ∧
      exitBlock st3 = some st4 ∧
      (createScope variableScenario.1 .null
          variableScenario.1.symtab.currentScope).1.symtab.currentScope =
        variableScenario.1.symtab.currentScope ∧
      st4.symtab.currentScope = variableScenario.1.symtab.currentScope ∧
      st4.scope (createScope variableScenario.1 .null
          variableScenario.1.symtab.currentScope).2 = some sc ∧
      sc.objList = [variableScenario.2] ∧
      findObject st4 sc.objList (Object.mk "x" .OBJ_VARIABLE (.varAttrs none .null)).name =
        some variableScenario.2 :=
  ⟨⟨by decide, by decide⟩,
   enterBlock_declareObject_exitBlock variableScenario.1 .null variableScenario.2
     (Object.mk "x" .OBJ_VARIABLE (.varAttrs none .null)) (by decide) (by decide)⟩

/-! ## Properties of the object factories -/

/-- C9: for every state and name, the object `createConstantObject` returns
carries the given name, but its kind is TYPE, not CONSTANT, and its attribute
block is a type attribute block with no actual type, not a constant attribute
block: the result is the one `createTypeObject` gives.  `createTypeObject`
returns an object of kind TYPE with a type attribute block and the given
name. -/
theorem createConstantObject_kind (st : State) (name : String) :
    (∃ o, (createConstantObject st name).1.object (createConstantObject st name).2 = some o ∧
      o.name = name ∧ o.kind = .OBJ_TYPE ∧ o.kind ≠ .OBJ_CONSTANT ∧
      o.attrs = .typeAttrs none ∧ ∀ value, o.attrs ≠ .constAttrs value) ∧
    createConstantObject st name = createTypeObject st name ∧
    (createTypeObject st name).1.object (createTypeObject st name).2 =
      some (Object.mk name .OBJ_TYPE (.typeAttrs none)) := by
  refine ⟨⟨Object.mk name .OBJ_TYPE (.typeAttrs none), ?_, rfl, rfl, ?_, rfl, ?_⟩, rfl, ?_⟩
  · simp [createConstantObject, State.object]
  · intro h; cases h
  · intro value h; cases h
  · simp [createTypeObject, State.object]

theorem createFunctionObject_name_too_long :
    (¬ ∃ MAX_IDENT_LEN : Nat, ∀ (st : State) (name : String),
      ∃ st1 obj o, createFunctionObject.inBuffer MAX_IDENT_LEN st name = some (st1, obj) ∧
        st1.object obj = some o ∧ o.kind = .OBJ_FUNCTION ∧ o.name = name) ∧
    createFunctionObject.inBuffer 15 emptyState "a_name_of_more_than_15_characters" = none := by
  refine ⟨?_, by decide⟩
  rintro ⟨bound, h⟩
  obtain ⟨st1, obj, o, h1, _⟩ := h emptyState (String.mk (List.replicate (bound + 1) 'a'))
  simp [createFunctionObject.inBuffer, strcpy, String.length] at h1

/-- C10 (amended): for a name that fits the name buffer (at most
`MAX_IDENT_LEN` characters) the copy of the name succeeds, and
`createFunctionObject name` and `createProcedureObject name` return a newly
allocated object of kind FUNCTION, respectively PROCEDURE, with the given
name and an empty parameter list, whose scope is newly allocated, has an
empty object list, the returned object as owner and the current scope of the
call as outer; `createProgramObject name` returns a newly allocated PROGRAM
object whose scope has the program as owner and NULL as outer, and stores the
program in `symtab.program`.  For a longer name the copy, and with it the
factory, has no result. -/
theorem create_routine_and_program (MAX_IDENT_LEN : Nat) (st : State) (name : String)
    (hname : name.length ≤ MAX_IDENT_LEN) :
    (createFunctionObject.inBuffer MAX_IDENT_LEN st name = some (createFunctionObject st name) ∧
      createProcedureObject.inBuffer MAX_IDENT_LEN st name =
        some (createProcedureObject st name) ∧
      createProgramObject.inBuffer MAX_IDENT_LEN st name =
        some (createProgramObject st name)) ∧
    (∃ scope,
      (createFunctionObject st name).1.object (createFunctionObject st name).2 =
        some (Object.mk name .OBJ_FUNCTION (.funcAttrs [] none scope)) ∧
      (createFunctionObject st name).1.scope scope =
        some (Scope.mk [] (createFunctionObject st name).2 st.symtab.currentScope) ∧
      st.scope scope = none ∧
      st.object (createFunctionObject st name).2 = none ∧
      (createFunctionObject st name).1.symtab = st.symtab) ∧
    (∃ scope,
      (createProcedureObject st name).1.object (createProcedureObject st name).2 =
        some (Object.mk name .OBJ_PROCEDURE (.procAttrs [] scope)) ∧
      (createProcedureObject st name).1.scope scope =
        some (Scope.mk [] (createProcedureObject st name).2 st.symtab.currentScope) ∧
      st.scope scope = none ∧
      st.object (createProcedureObject st name).2 = none ∧
      (createProcedureObject st name).1.symtab = st.symtab) ∧
    (∃ scope,
      (createProgramObject st name).1.object (createProgramObject st name).2 =
        some (Object.mk name .OBJ_PROGRAM (.progAttrs scope)) ∧
      (createProgramObject st name).1.scope scope =
        some (Scope.mk [] (createProgramObject st name).2 .null) ∧
      st.scope scope = none ∧
      st.object (createProgramObject st name).2 = none ∧
      (createProgramObject st name).1.symtab.program = (createProgramObject st name).2 ∧
      (createProgramObject st name).1.symtab.currentScope = st.symtab.currentScope ∧
      (createProgramObject st name).1.symtab.globalObjectList = st.symtab.globalObjectList) ∧
    (∀ long : String, MAX_IDENT_LEN < long.length →
      createFunctionObject.inBuffer MAX_IDENT_LEN st long = none ∧
      createProcedureObject.inBuffer MAX_IDENT_LEN st long = none ∧
      createProgramObject.inBuffer MAX_IDENT_LEN st long = none) := by
  refine ⟨⟨?_, ?_, ?_⟩, ⟨.addr st.scopes.length, ?_, ?_, ?_, ?_, rfl⟩,
    ⟨.addr st.scopes.length, ?_, ?_, ?_, ?_, rfl⟩,
    ⟨.addr st.scopes.length, ?_, ?_, ?_, ?_, rfl, rfl, rfl⟩, ?_⟩
  case refine_16 =>
    intro long hlong
    have hnot : ¬ long.length ≤ MAX_IDENT_LEN := Nat.not_le.mpr hlong
    simp [createFunctionObject.inBuffer, createProcedureObject.inBuffer,
      createProgramObject.inBuffer, strcpy, hnot]
  all_goals
    simp [createFunctionObject.inBuffer, createProcedureObject.inBuffer,
      createProgramObject.inBuffer, strcpy, hname,
      createFunctionObject, createProcedureObject, createProgramObject, createScope,
      State.object, State.scope]

theorem create_routine_and_program_witness :
    "f".length ≤ 15 ∧
    ((createFunctionObject.inBuffer 15 emptyState "f" = some (createFunctionObject emptyState "f") ∧
      createProcedureObject.inBuffer 15 emptyState "f" =
        some (createProcedureObject emptyState "f") ∧
      createProgramObject.inBuffer 15 emptyState "f" =
        some (createProgramObject emptyState "f")) ∧
    (∃ scope,
      (createFunctionObject emptyState "f").1.object (createFunctionObject emptyState "f").2 =
        some (Object.mk "f" .OBJ_FUNCTION (.funcAttrs [] none scope)) ∧
      (createFunctionObject emptyState "f").1.scope scope =
        some (Scope.mk [] (createFunctionObject emptyState "f").2 emptyState.symtab.currentScope) ∧
      emptyState.scope scope = none ∧
      emptyState.object (createFunctionObject emptyState "f").2 = none ∧
      (createFunctionObject emptyState "f").1.symtab = emptyState.symtab) ∧
    (∃ scope,
      (createProcedureObject emptyState "f").1.object (createProcedureObject emptyState "f").2 =
        some (Object.mk "f" .OBJ_PROCEDURE (.procAttrs [] scope)) ∧
      (createProcedureObject emptyState "f").1.scope scope =
        some (Scope.mk [] (createProcedureObject emptyState "f").2 emptyState.symtab.currentScope) ∧
      emptyState.scope scope = none ∧
      emptyState.object (createProcedureObject emptyState "f").2 = none ∧
      (createProcedureObject emptyState "f").1.symtab = emptyState.symtab) ∧
    (∃ scope,
      (createProgramObject emptyState "f").1.object (createProgramObject emptyState "f").2 =
        some (Object.mk "f" .OBJ_PROGRAM (.progAttrs scope)) ∧
      (createProgramObject emptyState "f").1.scope scope =
        some (Scope.mk [] (createProgramObject emptyState "f").2 .null) ∧
      emptyState.scope scope = none ∧
      emptyState.object (createProgramObject emptyState "f").2 = none ∧
      (createProgramObject emptyState "f").1.symtab.program = (createProgramObject emptyState "f").2 ∧
      (createProgramObject emptyState "f").1.symtab.currentScope = emptyState.symtab.currentScope ∧
      (createProgramObject emptyState "f").1.symtab.globalObjectList = emptyState.symtab.globalObjectList) ∧
    (∀ long : String, 15 < long.length →
      createFunctionObject.inBuffer 15 emptyState long = none ∧
      createProcedureObject.inBuffer 15 emptyState long = none ∧
      createProgramObject.inBuffer 15 emptyState long = none)) :=
  ⟨by decide, create_routine_and_program 15 emptyState "f" (by decide)⟩

/-! ## Properties of the constant utility -/

/-- C12: `duplicateConstantValue v` has the type tag of `v` and the payload
the tag selects: the integer value of an INT constant, the character value of
a CHAR constant; the duplicate of `makeIntConstant i` is an INT constant with
value `i`, the duplicate of `makeCharConstant c` a CHAR constant with value
`c`. -/
theorem duplicateConstantValue_same (v : ConstantValue) (i : Int) (c : Char) :
    (duplicateConstantValue v).type = v.type ∧
    (duplicateConstantValue v).intValue = (if v.type = .TP_INT then v.intValue else none) ∧
    (duplicateConstantValue v).charValue = (if v.type = .TP_CHAR then v.charValue else none) ∧
    duplicateConstantValue (makeIntConstant i) = makeIntConstant i ∧
    (duplicateConstantValue (makeIntConstant i)).type = .TP_INT ∧
    (duplicateConstantValue (makeIntConstant i)).intValue = some i ∧
    duplicateConstantValue (makeCharConstant c) = makeCharConstant c ∧
    (duplicateConstantValue (makeCharConstant c)).type = .TP_CHAR ∧
    (duplicateConstantValue (makeCharConstant c)).charValue = some c := by
  refine ⟨?_, ?_, ?_, ?_, ?_, ?_, ?_, ?_, ?_⟩
  · unfold duplicateConstantValue; split_ifs <;> rfl
  · unfold duplicateConstantValue; split_ifs <;> simp_all
  · unfold duplicateConstantValue; split_ifs <;> simp_all
  · simp [duplicateConstantValue, makeIntConstant]
  · simp [duplicateConstantValue, makeIntConstant]
  · simp [duplicateConstantValue, makeIntConstant]
  · simp [duplicateConstantValue, makeCharConstant]
  · simp [duplicateConstantValue, makeCharConstant]
  · simp [duplicateConstantValue, makeCharConstant]

/-! ## Properties of the release functions -/

theorem freeType_eq_nodes (t : Type_) : freeType t = (t.nodes.map Freed.typeNode).reverse := by
  induction t with
  | int => rfl
  | char => rfl
  | array n e ih => simp [freeType, Type_.nodes, ih]

theorem nodes_mem_length (t : Type_) : ∀ u ∈ t.nodes, u.nodes.length ≤ t.nodes.length := by
  induction t with
  | int => intro u hu; simp [Type_.nodes] at hu; subst hu; exact le_refl _
  | char => intro u hu; simp [Type_.nodes] at hu; subst hu; exact le_refl _
  | array n e ih =>
      intro u hu
      simp only [Type_.nodes, List.mem_cons] at hu
      rcases hu with rfl | hu
      · exact le_refl _
      · have := ih u hu
        simp only [Type_.nodes, List.length_cons]
        omega

theorem nodes_nodup (t : Type_) : t.nodes.Nodup := by
  induction t with
  | int => simp [Type_.nodes]
  | char => simp [Type_.nodes]
  | array n e ih =>
      simp only [Type_.nodes, List.nodup_cons]
      refine ⟨?_, ih⟩
      intro h
      have := nodes_mem_length e _ h
      simp only [Type_.nodes, List.length_cons] at this
      omega

theorem typeNode_injective : Function.Injective Freed.typeNode := by
  intro a b h
  cases h
  rfl

/-- C14: `freeType t` frees the nodes of `t` and nothing else, each exactly
once: the list of frees is the list of the nodes of `t`, innermost first, it
has no repetition, its length is the number of nodes, one more for an array
than for its element type, and an array node is freed right after all the
frees of its element type. -/
theorem freeType_each_node_once (t : Type_) :
    freeType t = (t.nodes.map Freed.typeNode).reverse ∧
    (freeType t).Nodup ∧
    (freeType t).length = t.nodes.length ∧
    (∀ u : Type_, (freeType t).count (Freed.typeNode u) = if u ∈ t.nodes then 1 else 0) ∧
    (∀ b : Freed, b ∈ freeType t ↔ ∃ u ∈ t.nodes, b = Freed.typeNode u) ∧
    (∀ (n : Int) (e : Type_),
      freeType (.array n e) = freeType e ++ [Freed.typeNode (.array n e)] ∧
      (Type_.array n e).nodes.length = e.nodes.length + 1) := by
  have hnodup : (freeType t).Nodup := by
    rw [freeType_eq_nodes, List.nodup_reverse]
    exact (nodes_nodup t).map typeNode_injective
  refine ⟨freeType_eq_nodes t, hnodup, ?_, ?_, ?_, ?_⟩
  · simp [freeType_eq_nodes]
  · intro u
    by_cases hu : u ∈ t.nodes
    · rw [if_pos hu]
      apply List.count_eq_one_of_mem hnodup
      rw [freeType_eq_nodes]
      simpa using hu
    · rw [if_neg hu]
      apply List.count_eq_zero_of_not_mem
      rw [freeType_eq_nodes]
      simpa using hu
  · intro b
    rw [freeType_eq_nodes]
    simp only [List.mem_reverse, List.mem_map]
    constructor
    · rintro ⟨u, hu, rfl⟩; exact ⟨u, hu, rfl⟩
    · rintro ⟨u, hu, rfl⟩; exact ⟨u, hu, rfl⟩
  · intro n e
    exact ⟨rfl, rfl⟩

theorem setObject_last (st : State) (o o1 : Object) :
    State.setObject { st with objects := st.objects ++ [o] } (.addr st.objects.length) o1 =
      some { st with objects := st.objects ++ [o1] } := by
  simp [State.setObject]

/-- C15: `freeObject` on a VARIABLE object whose type is an array frees the
array node of the type, the attribute block and the object, and does not free
the element type, which `freeType` on that type frees; the same holds for the
actual type of a TYPE object. -/
theorem freeObject_variable_type (st : State) (name : String) (n : Int) (e : Type_)
    (fuel : Nat) :
    (∃ st1, setVarType (createVariableObject st name).1 (createVariableObject st name).2
        (.array n e) = some st1 ∧
      st1.object (createVariableObject st name).2 =
        some (Object.mk name .OBJ_VARIABLE (.varAttrs (some (.array n e)) st.symtab.currentScope)) ∧
      freeObject st1 (fuel + 1) (createVariableObject st name).2 =
        some [Freed.typeNode (.array n e), Freed.attrs (createVariableObject st name).2,
          Freed.object (createVariableObject st name).2] ∧
      Freed.typeNode e ∉ [Freed.typeNode (.array n e),
          Freed.attrs (createVariableObject st name).2,
          Freed.object (createVariableObject st name).2]) ∧
    (∃ st1, setActualType (createTypeObject st name).1 (createTypeObject st name).2
        (.array n e) = some st1 ∧
      st1.object (createTypeObject st name).2 =
        some (Object.mk name .OBJ_TYPE (.typeAttrs (some (.array n e)))) ∧
      freeObject st1 (fuel + 1) (createTypeObject st name).2 =
        some [Freed.typeNode (.array n e), Freed.attrs (createTypeObject st name).2,
          Freed.object (createTypeObject st name).2] ∧
      Freed.typeNode e ∉ [Freed.typeNode (.array n e),
          Freed.attrs (createTypeObject st name).2,
          Freed.object (createTypeObject st name).2]) ∧
    Freed.typeNode e ∈ freeType (.array n e) ∧
    (freeType (.array n e)).length = e.nodes.length + 1 := by
  have hne : e ≠ Type_.array n e := by
    intro h
    have h1 := congrArg (fun t => t.nodes.length) h
    simp [Type_.nodes] at h1
  have hmem : Freed.typeNode e ∈ freeType e := by
    rw [freeType_eq_nodes]
    cases e <;> simp [Type_.nodes]
  refine ⟨⟨{ st with objects := st.objects ++
        [Object.mk name .OBJ_VARIABLE (.varAttrs (some (.array n e)) st.symtab.currentScope)] },
      ?_, ?_, ?_, ?_⟩,
    ⟨{ st with objects := st.objects ++
        [Object.mk name .OBJ_TYPE (.typeAttrs (some (.array n e)))] }, ?_, ?_, ?_, ?_⟩, ?_, ?_⟩
  · simp only [setVarType, createVariableObject, State.object, getElem?_append_length,
      List.getElem?_cons_zero]
    exact setObject_last st _ _
  · simp [State.object, createVariableObject]
  · simp [freeObject, State.object, createVariableObject]
  · simp [hne]
  · simp only [setActualType, createTypeObject, State.object, getElem?_append_length,
      List.getElem?_cons_zero]
    exact setObject_last st _ _
  · simp [State.object, createTypeObject]
  · simp [freeObject, State.object, createTypeObject]
  · simp [hne]
  · simp [freeType, hmem]
  · simp [freeType, freeType_eq_nodes]

/-! ## Frame of the controller -/

theorem setObject_frame {st st1 : State} {p : Ptr} {o : Object}
    (h : st.setObject p o = some st1) :
    st1.symtab = st.symtab ∧ st1.scopes = st.scopes ∧ st1.intType = st.intType ∧
      st1.charType = st.charType := by
  cases p with
  | null => simp [State.setObject] at h
  | addr a =>
      simp only [State.setObject] at h
      split_ifs at h
      cases h
      exact ⟨rfl, rfl, rfl, rfl⟩

theorem addFuncParam_frame {st st1 : State} {owner obj : Ptr}
    (h : addFuncParam st owner obj = some st1) :
    st1.symtab = st.symtab ∧ st1.scopes = st.scopes ∧ st1.intType = st.intType ∧
      st1.charType = st.charType := by
  unfold addFuncParam at h
  split at h
  · exact setObject_frame h
  · cases h

theorem addProcParam_frame {st st1 : State} {owner obj : Ptr}
    (h : addProcParam st owner obj = some st1) :
    st1.symtab = st.symtab ∧ st1.scopes = st.scopes ∧ st1.intType = st.intType ∧
      st1.charType = st.charType := by
  unfold addProcParam at h
  split at h
  · exact setObject_frame h
  · cases h

/-- The shape of the state `declareObject` returns: the symbol-table block and
the globals are unchanged, and among the scopes only the current one is
written, with `obj` added to its object list. -/
theorem declareObject_shape {st st2 : State} {obj : Ptr}
    (h : declareObject st obj = some st2) :
    ∃ sa sc, st.symtab.currentScope = .addr sa ∧ st.scopes[sa]? = some sc ∧
      st2.symtab = st.symtab ∧ st2.intType = st.intType ∧ st2.charType = st.charType ∧
      st2.scopes = st.scopes.set sa { sc with objList := addObject sc.objList obj } := by
  have hstep : ∃ st1, (st1.symtab = st.symtab ∧ st1.scopes = st.scopes ∧
      st1.intType = st.intType ∧ st1.charType = st.charType) ∧
      addScopeObject st1 st1.symtab.currentScope obj = some st2 := by
    unfold declareObject at h
    cases ho : st.object obj with
    | none => simp [ho] at h
    | some o =>
        simp only [ho, bind, Option.bind] at h
        split at h
        · split at h
          · cases h
          · split at h
            · cases h
            · split at h
              · split at h
                · cases h
                · rename_i st1 h1
                  exact ⟨st1, addFuncParam_frame h1, h⟩
              · split at h
                · cases h
                · rename_i st1 h1
                  exact ⟨st1, addProcParam_frame h1, h⟩
              · exact ⟨st, ⟨rfl, rfl, rfl, rfl⟩, h⟩
        · exact ⟨st, ⟨rfl, rfl, rfl, rfl⟩, h⟩
  obtain ⟨st1, ⟨hsym, hscopes, hint, hchar⟩, hadd⟩ := hstep
  unfold addScopeObject at hadd
  rw [hsym] at hadd
  cases hcs : st.symtab.currentScope with
  | null => rw [hcs] at hadd; simp [State.scope] at hadd
  | addr sa =>
      rw [hcs] at hadd
      simp only [State.scope, hscopes] at hadd
      cases hsc : st.scopes[sa]? with
      | none => rw [hsc] at hadd; cases hadd
      | some sc =>
          rw [hsc] at hadd
          simp only [State.setScope, hscopes] at hadd
          split_ifs at hadd
          cases hadd
          exact ⟨sa, sc, rfl, hsc, hsym, hint, hchar, by simp [hscopes]⟩

/-- C20: in every state, `enterBlock` changes `symtab.currentScope` only: the
global object list, `symtab.program`, every object and every scope (object
list, owner, outer) are as before.  `exitBlock` returns exactly when the
current scope is a valid scope, and then changes `symtab.currentScope` only,
to the outer of the current scope.  Whenever `declareObject` returns, it
leaves `symtab.currentScope`, `symtab.program`, the global object list and
every scope other than the current one as before, and keeps the owner and
outer of the current one. -/
theorem controller_frame (st : State) (scope obj : Ptr) :
    ((enterBlock st scope).symtab.currentScope = scope ∧
      (enterBlock st scope).symtab.program = st.symtab.program ∧
      (enterBlock st scope).symtab.globalObjectList = st.symtab.globalObjectList ∧
      (enterBlock st scope).objects = st.objects ∧
      (enterBlock st scope).scopes = st.scopes ∧
      (enterBlock st scope).intType = st.intType ∧
      (enterBlock st scope).charType = st.charType) ∧
    (exitBlock st).isSome = (st.scope st.symtab.currentScope).isSome ∧
    (∀ st1, exitBlock st = some st1 →
      (st1.symtab.program = st.symtab.program ∧
      st1.symtab.globalObjectList = st.symtab.globalObjectList ∧
      st1.objects = st.objects ∧
      st1.scopes = st.scopes ∧
      st1.intType = st.intType ∧
      st1.charType = st.charType ∧
      some st1.symtab.currentScope = (st.scope st.symtab.currentScope).map Scope.outer)) ∧
    (∀ st2, declareObject st obj = some st2 →
      (st2.symtab.currentScope = st.symtab.currentScope ∧
      st2.symtab.program = st.symtab.program ∧
      st2.symtab.globalObjectList = st.symtab.globalObjectList ∧
      st2.intType = st.intType ∧
      st2.charType = st.charType ∧
      st2.scopes.length = st.scopes.length ∧
      (∀ a, Ptr.addr a ≠ st.symtab.currentScope → st2.scopes[a]? = st.scopes[a]?) ∧
      (st2.scope st.symtab.currentScope).map Scope.owner =
        (st.scope st.symtab.currentScope).map Scope.owner ∧
      (st2.scope st.symtab.currentScope).map Scope.outer =
        (st.scope st.symtab.currentScope).map Scope.outer)) := by
  refine ⟨⟨rfl, rfl, rfl, rfl, rfl, rfl, rfl⟩, ?_, ?_, ?_⟩
  · unfold exitBlock
    cases st.scope st.symtab.currentScope <;> rfl
  · intro st1 hexit
    unfold exitBlock at hexit
    split at hexit
    · rename_i sc hsc
      cases hexit
      exact ⟨rfl, rfl, rfl, rfl, rfl, rfl, by rw [hsc]; rfl⟩
    · cases hexit
  · intro st2 hdecl
    obtain ⟨sa, sc, hcs, hsc, hsym, hint, hchar, hscopes⟩ := declareObject_shape hdecl
    have hlt := lt_length_of_getElem? hsc
    refine ⟨by rw [hsym], by rw [hsym], by rw [hsym], hint, hchar, by simp [hscopes],
      ?_, ?_, ?_⟩
    · intro a ha
      have hne : sa ≠ a := by
        intro h
        apply ha
        rw [hcs, h]
      rw [hscopes, List.getElem?_set_ne hne]
    · simp [hcs, State.scope, hscopes, hsc, hlt]
    · simp [hcs, State.scope, hscopes, hsc, hlt]

theorem controller_frame_witness :
    (exitBlock parameterScenario.1 = some parameterScenarioExited ∧
      declareObject parameterScenario.1 parameterScenario.2 = some parameterScenarioDeclared) ∧
    ((enterBlock parameterScenario.1 Ptr.null).symtab.currentScope = Ptr.null ∧
      (enterBlock parameterScenario.1 Ptr.null).symtab.program = parameterScenario.1.symtab.program ∧
      (enterBlock parameterScenario.1 Ptr.null).symtab.globalObjectList = parameterScenario.1.symtab.globalObjectList ∧
      (enterBlock parameterScenario.1 Ptr.null).objects = parameterScenario.1.objects ∧
      (enterBlock parameterScenario.1 Ptr.null).scopes = parameterScenario.1.scopes ∧
      (enterBlock parameterScenario.1 Ptr.null).intType = parameterScenario.1.intType ∧
      (enterBlock parameterScenario.1 Ptr.null).charType = parameterScenario.1.charType) ∧
    (parameterScenarioExited.symtab.program = parameterScenario.1.symtab.program ∧
      parameterScenarioExited.symtab.globalObjectList = parameterScenario.1.symtab.globalObjectList ∧
      parameterScenarioExited.objects = parameterScenario.1.objects ∧
      parameterScenarioExited.scopes = parameterScenario.1.scopes ∧
      parameterScenarioExited.intType = parameterScenario.1.intType ∧
      parameterScenarioExited.charType = parameterScenario.1.charType ∧
      some parameterScenarioExited.symtab.currentScope = (parameterScenario.1.scope parameterScenario.1.symtab.currentScope).map Scope.outer) ∧
    (parameterScenarioDeclared.symtab.currentScope = parameterScenario.1.symtab.currentScope ∧
      parameterScenarioDeclared.symtab.program = parameterScenario.1.symtab.program ∧
      parameterScenarioDeclared.symtab.globalObjectList = parameterScenario.1.symtab.globalObjectList ∧
      parameterScenarioDeclared.intType = parameterScenario.1.intType ∧
      parameterScenarioDeclared.charType = parameterScenario.1.charType ∧
      parameterScenarioDeclared.scopes.length = parameterScenario.1.scopes.length ∧
      (∀ a, Ptr.addr a ≠ parameterScenario.1.symtab.currentScope → parameterScenarioDeclared.scopes[a]? = parameterScenario.1.scopes[a]?) ∧
      (parameterScenarioDeclared.scope parameterScenario.1.symtab.currentScope).map Scope.owner =
        (parameterScenario.1.scope parameterScenario.1.symtab.currentScope).map Scope.owner ∧
      (parameterScenarioDeclared.scope parameterScenario.1.symtab.currentScope).map Scope.outer =
        (parameterScenario.1.scope parameterScenario.1.symtab.currentScope).map Scope.outer) :=
  ⟨⟨by decide, by decide⟩,
   (controller_frame parameterScenario.1 Ptr.null parameterScenario.2).1,
   (controller_frame parameterScenario.1 Ptr.null parameterScenario.2).2.2.1
     parameterScenarioExited (by decide),
   (controller_frame parameterScenario.1 Ptr.null parameterScenario.2).2.2.2
     parameterScenarioDeclared (by decide)⟩

/-- C17: when `obj` is not a PARAMETER object, or is one while the owner of
the current scope is neither a FUNCTION nor a PROCEDURE, `declareObject obj`
returns, adds `obj` at the end of the object list of the current scope and
leaves every object, hence every parameter list, as it was. -/
theorem declareObject_no_parameter_list (st : State) (obj : Ptr) (o : Object) (sc : Scope)
    (hobj : st.object obj = some o)
    (hcur : st.scope st.symtab.currentScope = some sc)
    (hcase : o.kind ≠ .OBJ_PARAMETER ∨
      ∃ owner, st.object sc.owner = some owner ∧
        owner.kind ≠ .OBJ_FUNCTION ∧ owner.kind ≠ .OBJ_PROCEDURE) :
    ∃ st1, declareObject st obj = some st1 ∧
      st1.objects = st.objects ∧
      (∀ p, (st1.object p).bind Object.paramList = (st.object p).bind Object.paramList) ∧
      st1.symtab = st.symtab ∧
      st1.scope st.symtab.currentScope =
        some { sc with objList := sc.objList ++ [obj] } := by
  cases hcs : st.symtab.currentScope with
  | null => rw [hcs] at hcur; cases hcur
  | addr sa =>
      rw [hcs] at hcur
      have hsa : st.scopes[sa]? = some sc := hcur
      have hlt := lt_length_of_getElem? hsa
      have hkey : declareObject st obj = addScopeObject st (.addr sa) obj := by
        unfold declareObject
        simp only [hobj, bind, Option.bind]
        by_cases hk : o.kind = .OBJ_PARAMETER
        · rcases hcase with hne | ⟨owner, how, hf, hp⟩
          · exact absurd hk hne
          · rw [if_pos hk, hcs, hcur]
            simp only [how]
        · rw [if_neg hk, hcs]
      refine ⟨{ st with scopes := st.scopes.set sa { sc with objList := sc.objList ++ [obj] } },
        ?_, rfl, fun p => rfl, rfl, ?_⟩
      · rw [hkey]
        simp [addScopeObject, State.scope, hsa, State.setScope, hlt, addObject_eq_append]
      · simp [State.scope, hlt]

theorem declareObject_no_parameter_list_witness :
    (programScenario.1.object programScenario.2 =
        some (Object.mk "n" .OBJ_PARAMETER (.paramAttrs .PARAM_VALUE none (.addr 0))) ∧
      programScenario.1.scope programScenario.1.symtab.currentScope =
        some (Scope.mk [] (.addr 0) .null) ∧
      ((Object.mk "n" .OBJ_PARAMETER (.paramAttrs .PARAM_VALUE none (.addr 0))).kind ≠
          .OBJ_PARAMETER ∨
        ∃ owner, programScenario.1.object (Scope.mk [] (.addr 0) .null).owner = some owner ∧
          owner.kind ≠ .OBJ_FUNCTION ∧ owner.kind ≠ .OBJ_PROCEDURE)) ∧
    ∃ st1, declareObject programScenario.1 programScenario.2 = some st1 ∧
      st1.objects = programScenario.1.objects ∧
      (∀ p, (st1.object p).bind Object.paramList =
        (programScenario.1.object p).bind Object.paramList) ∧
      st1.symtab = programScenario.1.symtab ∧
      st1.scope programScenario.1.symtab.currentScope =
        some { Scope.mk [] (.addr 0) .null with
          objList := (Scope.mk [] (.addr 0) .null).objList ++ [programScenario.2] } :=
  ⟨⟨by decide, by decide,
      Or.inr ⟨Object.mk "P" .OBJ_PROGRAM (.progAttrs (.addr 0)), by decide, by decide, by decide⟩⟩,
   declareObject_no_parameter_list programScenario.1 programScenario.2
     (Object.mk "n" .OBJ_PARAMETER (.paramAttrs .PARAM_VALUE none (.addr 0)))
     (Scope.mk [] (.addr 0) .null) (by decide) (by decide)
     (Or.inr ⟨Object.mk "P" .OBJ_PROGRAM (.progAttrs (.addr 0)), by decide, by decide,
       by decide⟩)⟩

/-! ## Properties of `areFilesIdentical` -/

theorem areFilesIdentical_fresh (rest1 : List (Fin 256)) :
    ∀ rest2 : List (Fin 256),
      areFilesIdentical { rest := rest1, eof := false } { rest := rest2, eof := false } = 0 := by
  induction rest1 with
  | nil =>
      intro rest2
      rw [areFilesIdentical]
      simp [fgetc, toChar, EOF, feof]
  | cons b r ih =>
      intro rest2
      rw [areFilesIdentical]
      cases rest2 with
      | nil => simp [fgetc, toChar, EOF, feof]
      | cons c r2 =>
          simp only [fgetc, feof]
          split_ifs <;> first | rfl | exact ih r2 | simp_all

/-- C18: on two freshly opened streams `areFilesIdentical` returns 0 whatever
the contents are, in particular for two streams with equal contents and for
two empty streams: when the first stream ends the loop is left before the
second stream is read, so the end-of-file indicator of the second stream is
not set. -/
theorem areFilesIdentical_equal_contents (contents1 contents2 : List (Fin 256)) :
    areFilesIdentical (Stream.opened contents1) (Stream.opened contents2) = 0 ∧
    areFilesIdentical (Stream.opened contents1) (Stream.opened contents1) = 0 ∧
    areFilesIdentical (Stream.opened []) (Stream.opened []) = 0 ∧
    areFilesIdentical (Stream.opened [97]) (Stream.opened [97]) = 0 :=
  ⟨areFilesIdentical_fresh contents1 contents2, areFilesIdentical_fresh contents1 contents1,
    areFilesIdentical_fresh [] [], areFilesIdentical_fresh [97] [97]⟩

/-! ## Properties of `compare_files` -/

theorem compare_files_loop_one_more (line : String) :
    ∀ lines : List String, compare_files.loop (lines ++ [line]) lines = (0, [], []) := by
  intro lines
  induction lines with
  | nil => rfl
  | cons l rest ih => simp [compare_files.loop, ih]

theorem compare_files_cons (line : String) (a b : List String) :
    compare_files (some (line :: a)) (some (line :: b)) = compare_files (some a) (some b) := by
  simp [compare_files, compare_files.loop]

theorem compare_files_zero_iff (a : List String) :
    ∀ b : List String,
      compare_files (some a) (some b) = 0 ↔ (a = b ∨ ∃ line, a = b ++ [line]) := by
  induction a with
  | nil =>
      intro b
      cases b with
      | nil => simp [compare_files, compare_files.loop, fgets]
      | cons y b1 => simp [compare_files, compare_files.loop, fgets]
  | cons x a1 ih =>
      intro b
      cases b with
      | nil =>
          cases a1 with
          | nil => simp [compare_files, compare_files.loop, fgets]
          | cons z a2 => simp [compare_files, compare_files.loop, fgets]
      | cons y b1 =>
          by_cases hxy : x = y
          · subst hxy
            rw [compare_files_cons, ih b1]
            simp
          · have hne : compare_files (some (x :: a1)) (some (y :: b1)) = 1 := by
              simp only [compare_files, compare_files.loop, if_pos hxy]
              split_ifs <;> rfl
            rw [hne]
            simp [hxy]

/-- C19: `compare_files` returns 0 when the first file is the second file
followed by exactly one more line: for every such pair, and for the files
`a`, `b` against `a`.  On two opened files it returns 0 exactly when the
files have the same lines or the first has the lines of the second and one
more. -/
theorem compare_files_one_more_line (lines : List String) (line : String) :
    compare_files (some (lines ++ [line])) (some lines) = 0 ∧
    lines ++ [line] ≠ lines ∧
    compare_files (some ["a\n", "b\n"]) (some ["a\n"]) = 0 ∧
    (∀ a b : List String,
      compare_files (some a) (some b) = 0 ↔ (a = b ∨ ∃ last, a = b ++ [last])) := by
  refine ⟨?_, ?_, ?_, fun a b => compare_files_zero_iff a b⟩
  · simp [compare_files, compare_files_loop_one_more, fgets]
  · simp
  · exact (compare_files_zero_iff _ _).mpr (Or.inr ⟨"b\n", rfl⟩)

/-! ## Fuel of the release functions -/

theorem freeObject_zero (st : State) (p : Ptr) : freeObject st 0 p = none := by
  simp [freeObject]

/-- A result of a release function is kept with one more unit of fuel. -/
theorem free_succ (st : State) : ∀ fuel : Nat,
    (∀ p t, freeObject st fuel p = some t → freeObject st (fuel + 1) p = some t) ∧
    (∀ s t, freeScope st fuel s = some t → freeScope st (fuel + 1) s = some t) ∧
    (∀ l t, freeObjectList st fuel l = some t → freeObjectList st (fuel + 1) l = some t) := by
  intro fuel
  induction fuel with
  | zero =>
      refine ⟨?_, ?_, ?_⟩
      · intro p t h; simp [freeObject] at h
      · intro s t h; simp [freeScope] at h
      · intro l t h; simp [freeObjectList] at h
  | succ n ih =>
      obtain ⟨ihO, ihS, ihL⟩ := ih
      refine ⟨?_, ?_, ?_⟩
      · intro p t h
        rw [freeObject] at h ⊢
        cases ho : st.object p with
        | none => simp [ho] at h
        | some o =>
            rcases o with ⟨name, kind, attrs⟩
            simp only [ho] at h ⊢
            split at h
            · cases h
            · rename_i freed hb
              split at hb
              · simp_all
              · simp_all
              · simp_all
              · split at hb
                · cases hb
                · rename_i fr hs
                  have hs1 := ihS _ _ hs
                  simp_all
              · split at hb
                · cases hb
                · rename_i fr hs
                  have hs1 := ihS _ _ hs
                  simp_all
              · split at hb
                · cases hb
                · rename_i fr hs
                  have hs1 := ihS _ _ hs
                  simp_all
              · simp_all
              · cases hb
      · intro s t h
        rw [freeScope] at h ⊢
        cases hs : st.scope s with
        | none => simp [hs] at h
        | some sc =>
            simp only [hs] at h ⊢
            cases hl : freeObjectList st n sc.objList with
            | none => simp [hl] at h
            | some freed => rw [hl] at h; rw [ihL _ _ hl]; exact h
      · intro l t h
        cases l with
        | nil => simp [freeObjectList] at h ⊢; exact h
        | cons object next =>
            rw [freeObjectList] at h ⊢
            cases ho : freeObject st n object with
            | none => simp [ho] at h
            | some freed =>
                simp only [ho] at h
                rw [ihO _ _ ho]
                cases hl : freeObjectList st n next with
                | none => simp [hl] at h
                | some rest => rw [hl] at h; rw [ihL _ _ hl]; exact h

theorem freeObject_mono (st : State) {n m : Nat} (hle : n ≤ m) {p : Ptr} {t : List Freed}
    (h : freeObject st n p = some t) : freeObject st m p = some t := by
  induction hle with
  | refl => exact h
  | step _ ih => exact (free_succ st _).1 p t ih

theorem freeObjectList_mono (st : State) {n m : Nat} (hle : n ≤ m) {l : List Ptr}
    {t : List Freed} (h : freeObjectList st n l = some t) : freeObjectList st m l = some t := by
  induction hle with
  | refl => exact h
  | step _ ih => exact (free_succ st _).2.2 l t ih

theorem cleanSymTab_mono (st : State) {n m : Nat} (hle : n ≤ m) {t : List Freed}
    (h : cleanSymTab st n = some t) : cleanSymTab st m = some t := by
  unfold cleanSymTab at h ⊢
  simp only [bind, Option.bind_eq_some] at h ⊢
  obtain ⟨a, ha, b, hb, i, hi, c, hc, ht⟩ := h
  exact ⟨a, freeObject_mono st hle ha, b, freeObjectList_mono st hle hb, i, hi, c, hc, ht⟩

/-- The list of frees of `cleanSymTab` does not depend on the fuel. -/
theorem cleanSymTab_fuel (st : State) {n m : Nat} {t u : List Freed}
    (h : cleanSymTab st n = some t) (hm : cleanSymTab st m = some u) : u = t := by
  have h1 := cleanSymTab_mono st (Nat.le_max_left n m) h
  have h2 := cleanSymTab_mono st (Nat.le_max_right n m) hm
  rw [h1] at h2
  cases h2
  rfl

theorem cleanSymTab_no_program (st : State) (fuel : Nat)
    (h : st.object st.symtab.program = none) : cleanSymTab st fuel = none := by
  have hfree : freeObject st fuel st.symtab.program = none := by
    cases fuel with
    | zero => exact freeObject_zero st _
    | succ n => simp [freeObject, h]
  simp [cleanSymTab, hfree]

/-! ## `cleanSymTab` -/

/-- The frees of `cleanSymTab` after `initSymTab` and `createProgramObject`,
written out. -/
theorem cleanSymTab_after_program (st : State) (name : String) :
    ∃ st1 programFreed globalsFreed, initSymTab st = some st1 ∧
      (createProgramObject st1 name).2 = .addr (st.objects.length + 7) ∧
      freeObject (createProgramObject st1 name).1 10
          (createProgramObject st1 name).1.symtab.program = some programFreed ∧
      freeObjectList (createProgramObject st1 name).1 10
          (createProgramObject st1 name).1.symtab.globalObjectList = some globalsFreed ∧
      (createProgramObject st1 name).1.intType = some .int ∧
      (createProgramObject st1 name).1.charType = some .char ∧
      st1.symtab.globalObjectList =
        [.addr st.objects.length, .addr (st.objects.length + 1), .addr (st.objects.length + 2),
          .addr (st.objects.length + 4), .addr (st.objects.length + 6)] ∧
      programFreed =
        [Freed.scope (.addr (st.scopes.length + 5)),
          Freed.attrs (.addr (st.objects.length + 7)),
          Freed.object (.addr (st.objects.length + 7))] ∧
      globalsFreed =
        [Freed.typeNode .char, Freed.scope (.addr st.scopes.length),
          Freed.attrs (.addr st.objects.length), Freed.object (.addr st.objects.length),
          Freed.node (.addr st.objects.length),
          Freed.typeNode .int, Freed.scope (.addr (st.scopes.length + 1)),
          Freed.attrs (.addr (st.objects.length + 1)),
          Freed.object (.addr (st.objects.length + 1)),
          Freed.node (.addr (st.objects.length + 1)),
          Freed.paramNode (.addr (st.objects.length + 3)),
          Freed.scope (.addr (st.scopes.length + 2)),
          Freed.attrs (.addr (st.objects.length + 2)),
          Freed.object (.addr (st.objects.length + 2)),
          Freed.node (.addr (st.objects.length + 2)),
          Freed.paramNode (.addr (st.objects.length + 5)),
          Freed.scope (.addr (st.scopes.length + 3)),
          Freed.attrs (.addr (st.objects.length + 4)),
          Freed.object (.addr (st.objects.length + 4)),
          Freed.node (.addr (st.objects.length + 4)),
          Freed.scope (.addr (st.scopes.length + 4)),
          Freed.attrs (.addr (st.objects.length + 6)),
          Freed.object (.addr (st.objects.length + 6)),
          Freed.node (.addr (st.objects.length + 6))] := by
  refine ⟨_, _, _, initSymTab_eq st, ?_, ?_, ?_, rfl, rfl, rfl, rfl, rfl⟩
  · simp [createProgramObject, createScope]
  · simp [createProgramObject, createScope, freeObject, freeScope, freeObjectList, State.object,
      State.scope, Nat.add_assoc, getElem?_append_add, getElem?_append_length,
      List.getElem?_cons_zero, List.getElem?_cons_succ, -List.getElem?_eq_getElem]
  · simp [createProgramObject, createScope, freeObject, freeScope, freeObjectList, State.object,
      State.scope, Nat.add_assoc, getElem?_append_add, getElem?_append_length,
      List.getElem?_cons_zero, List.getElem?_cons_succ, -List.getElem?_eq_getElem,
      freeReferenceList, freeType]

theorem cleanSymTab_without_program_fails :
    ¬ ∃ st fuel freed, initSymTab emptyState = some st ∧ cleanSymTab st fuel = some freed := by
  rintro ⟨st, fuel, freed, hinit, hclean⟩
  rw [initSymTab_eq] at hinit
  have hp : st.object st.symtab.program = none := by
    cases hinit
    rfl
  rw [cleanSymTab_no_program st fuel hp] at hclean
  cases hclean

/-- C11 (amended): `cleanSymTab` passes `symtab.program` to `freeObject`
without a test, so it needs a declared program: in a state whose
`symtab.program` points to no object it does not complete.  After
`initSymTab` followed by `createProgramObject` it completes, for every
sufficient fuel, and its frees are exactly these, in this order: the scope,
the attribute block and the object of the program; for each routine of the
global object list in turn its return type (READC, READI) or the node of its
parameter list (WRITEI, WRITEC), its scope, its attribute block, its object
and its node of the global list; the state container; the two primitive
type singletons. -/
theorem cleanSymTab_declared_program (st : State) (name : String) :
    ∃ st1 readc readi writei writec writeln pi pch program
        sReadc sReadi sWritei sWritec sWriteln sProgram,
      initSymTab st = some st1 ∧
      st1.symtab.globalObjectList = [readc, readi, writei, writec, writeln] ∧
      (createProgramObject st1 name).2 = program ∧
      (createProgramObject st1 name).1.symtab.program = program ∧
      (createProgramObject st1 name).1.symtab.globalObjectList =
        [readc, readi, writei, writec, writeln] ∧
      ((createProgramObject st1 name).1.object program).bind Object.scope = some sProgram ∧
      ((createProgramObject st1 name).1.object readc).bind Object.scope = some sReadc ∧
      ((createProgramObject st1 name).1.object readi).bind Object.scope = some sReadi ∧
      ((createProgramObject st1 name).1.object writei).bind Object.scope = some sWritei ∧
      ((createProgramObject st1 name).1.object writec).bind Object.scope = some sWritec ∧
      ((createProgramObject st1 name).1.object writeln).bind Object.scope = some sWriteln ∧
      ((createProgramObject st1 name).1.object writei).bind Object.paramList = some [pi] ∧
      ((createProgramObject st1 name).1.object writec).bind Object.paramList = some [pch] ∧
      (∀ fuel, 10 ≤ fuel →
        freeObject (createProgramObject st1 name).1 fuel program =
          some [Freed.scope sProgram, Freed.attrs program, Freed.object program] ∧
        freeObjectList (createProgramObject st1 name).1 fuel
            [readc, readi, writei, writec, writeln] =
          some [Freed.typeNode .char, Freed.scope sReadc, Freed.attrs readc,
            Freed.object readc, Freed.node readc,
            Freed.typeNode .int, Freed.scope sReadi, Freed.attrs readi,
            Freed.object readi, Freed.node readi,
            Freed.paramNode pi, Freed.scope sWritei, Freed.attrs writei,
            Freed.object writei, Freed.node writei,
            Freed.paramNode pch, Freed.scope sWritec, Freed.attrs writec,
            Freed.object writec, Freed.node writec,
            Freed.scope sWriteln, Freed.attrs writeln,
            Freed.object writeln, Freed.node writeln] ∧
        cleanSymTab (createProgramObject st1 name).1 fuel =
          some [Freed.scope sProgram, Freed.attrs program, Freed.object program,
            Freed.typeNode .char, Freed.scope sReadc, Freed.attrs readc,
            Freed.object readc, Freed.node readc,
            Freed.typeNode .int, Freed.scope sReadi, Freed.attrs readi,
            Freed.object readi, Freed.node readi,
            Freed.paramNode pi, Freed.scope sWritei, Freed.attrs writei,
            Freed.object writei, Freed.node writei,
            Freed.paramNode pch, Freed.scope sWritec, Freed.attrs writec,
            Freed.object writec, Freed.node writec,
            Freed.scope sWriteln, Freed.attrs writeln,
            Freed.object writeln, Freed.node writeln,
            Freed.symtab, Freed.typeNode .int, Freed.typeNode .char]) ∧
      (∀ (st2 : State) (fuel : Nat),
        st2.object st2.symtab.program = none → cleanSymTab st2 fuel = none) := by
  obtain ⟨st1, pf, gf, hinit, hprog, hfreeP, hfreeG, hint, hchar, hglobals, hpf, hgf⟩ :=
    cleanSymTab_after_program st name
  have hst1 := initSymTab_eq st
  rw [hinit] at hst1
  injection hst1 with hst1
  have hprogram : (createProgramObject st1 name).1.symtab.program =
      .addr (st.objects.length + 7) := hprog
  have hglobals1 : (createProgramObject st1 name).1.symtab.globalObjectList =
      [.addr st.objects.length, .addr (st.objects.length + 1), .addr (st.objects.length + 2),
        .addr (st.objects.length + 4), .addr (st.objects.length + 6)] := hglobals
  rw [hprogram] at hfreeP
  rw [hglobals1] at hfreeG
  subst hpf hgf
  refine ⟨st1, .addr st.objects.length, .addr (st.objects.length + 1),
    .addr (st.objects.length + 2), .addr (st.objects.length + 4),
    .addr (st.objects.length + 6), .addr (st.objects.length + 3),
    .addr (st.objects.length + 5), .addr (st.objects.length + 7),
    .addr st.scopes.length, .addr (st.scopes.length + 1), .addr (st.scopes.length + 2),
    .addr (st.scopes.length + 3), .addr (st.scopes.length + 4), .addr (st.scopes.length + 5),
    hinit, hglobals, hprog, hprogram, hglobals1, ?_, ?_, ?_, ?_, ?_, ?_, ?_, ?_, ?_,
    fun st2 fuel h => cleanSymTab_no_program st2 fuel h⟩
  case refine_9 =>
    intro fuel hfuel
    have h1 := freeObject_mono _ hfuel hfreeP
    have h2 := freeObjectList_mono _ hfuel hfreeG
    refine ⟨h1, h2, ?_⟩
    simp only [cleanSymTab, hprogram, hglobals1, h1, h2, hint, hchar, bind, Option.bind,
      freeType]
    rfl
  all_goals
    rw [hst1]
    simp [createProgramObject, createScope, State.object, Object.scope, Object.paramList,
      Nat.add_assoc, getElem?_append_add, getElem?_append_length,
      List.getElem?_cons_zero, List.getElem?_cons_succ, -List.getElem?_eq_getElem]

/-- C16: after `initSymTab` the parameter `i` of WRITEI and the parameter `ch`
of WRITEC are in the parameter list of their routine and in no other list:
the object list of the routine's scope, like that of every scope `initSymTab`
creates, is empty, and the global object list does not hold them; the frees
of `cleanSymTab` (with a program declared, so that it completes) contain
neither parameter object. -/
theorem initSymTab_parameters_in_one_list (st : State) (name : String) :
    ∃ st1 writei writec pi pch si sch, initSymTab st = some st1 ∧
      st1.symtab.globalObjectList[2]? = some writei ∧
      st1.symtab.globalObjectList[3]? = some writec ∧
      st1.object writei = some (Object.mk "WRITEI" .OBJ_PROCEDURE (.procAttrs [pi] si)) ∧
      st1.object writec = some (Object.mk "WRITEC" .OBJ_PROCEDURE (.procAttrs [pch] sch)) ∧
      (st1.object pi).map Object.kind = some .OBJ_PARAMETER ∧
      (st1.object pch).map Object.kind = some .OBJ_PARAMETER ∧
      (st1.scope si).map Scope.objList = some [] ∧
      (st1.scope sch).map Scope.objList = some [] ∧
      (∀ a sc, st.scopes.length ≤ a → st1.scopes[a]? = some sc → sc.objList = []) ∧
      pi ∉ st1.symtab.globalObjectList ∧ pch ∉ st1.symtab.globalObjectList ∧
      (∃ freed, cleanSymTab (createProgramObject st1 name).1 10 = some freed) ∧
      (∀ fuel freed, cleanSymTab (createProgramObject st1 name).1 fuel = some freed →
        freed.count (Freed.object pi) = 0 ∧ freed.count (Freed.object pch) = 0) := by
  obtain ⟨st1, pf, gf, hinit, hprog, hfreeP, hfreeG, hint, hchar, hglobals, hpf, hgf⟩ :=
    cleanSymTab_after_program st name
  have hclean : cleanSymTab (createProgramObject st1 name).1 10 =
      some (pf ++ gf ++ [Freed.symtab, Freed.typeNode .int, Freed.typeNode .char]) := by
    simp [cleanSymTab, hfreeP, hfreeG, hint, hchar, freeType]
  have hst1 := initSymTab_eq st
  rw [hinit] at hst1
  injection hst1 with hst1
  refine ⟨st1, .addr (st.objects.length + 2), .addr (st.objects.length + 4),
    .addr (st.objects.length + 3), .addr (st.objects.length + 5),
    .addr (st.scopes.length + 2), .addr (st.scopes.length + 3), hinit, ?_, ?_,
    ?_, ?_, ?_, ?_, ?_, ?_, ?_, ?_, ?_, ⟨_, hclean⟩, ?_⟩
  · rw [hglobals]; rfl
  · rw [hglobals]; rfl
  · rw [hst1]; simp [State.object, getElem?_append_add, List.getElem?_cons_zero, List.getElem?_cons_succ,
      -List.getElem?_eq_getElem]
  · rw [hst1]; simp [State.object, getElem?_append_add, List.getElem?_cons_zero, List.getElem?_cons_succ,
      -List.getElem?_eq_getElem]
  · rw [hst1]; simp [State.object, getElem?_append_add, List.getElem?_cons_zero, List.getElem?_cons_succ,
      -List.getElem?_eq_getElem]
  · rw [hst1]; simp [State.object, getElem?_append_add, List.getElem?_cons_zero, List.getElem?_cons_succ,
      -List.getElem?_eq_getElem]
  · rw [hst1]; simp [State.scope, getElem?_append_add, List.getElem?_cons_zero, List.getElem?_cons_succ,
      -List.getElem?_eq_getElem]
  · rw [hst1]; simp [State.scope, getElem?_append_add, List.getElem?_cons_zero, List.getElem?_cons_succ,
      -List.getElem?_eq_getElem]
  · intro a sc ha hsc
    obtain ⟨k, rfl⟩ := Nat.exists_eq_add_of_le ha
    rw [hst1] at hsc
    simp only [getElem?_append_add] at hsc
    rcases k with _ | _ | _ | _ | _ | k <;> simp at hsc <;> subst hsc <;> rfl
  · rw [hglobals]; simp
  · rw [hglobals]; simp
  · intro fuel freed hfreed
    have := cleanSymTab_fuel _ hclean hfreed
    subst this
    subst hpf hgf
    constructor <;> rw [List.count_eq_zero] <;> simp

/-! ## A routine, its parameters and their release -/

theorem declareObject_function_parameter (st : State) (pa sa fa : Nat) (po : Object)
    (sc : Scope) (name : String) (pl : List Ptr) (rt : Option Type_) (scope : Ptr)
    (hpo : st.objects[pa]? = some po) (hkind : po.kind = .OBJ_PARAMETER)
    (hcs : st.symtab.currentScope = .addr sa) (hsc : st.scopes[sa]? = some sc)
    (hown : sc.owner = .addr fa)
    (hf : st.objects[fa]? = some (Object.mk name .OBJ_FUNCTION (.funcAttrs pl rt scope))) :
    declareObject st (.addr pa) = some
      { st with
        objects := st.objects.set fa
          (Object.mk name .OBJ_FUNCTION (.funcAttrs (pl ++ [.addr pa]) rt scope))
        scopes := st.scopes.set sa { sc with objList := sc.objList ++ [.addr pa] } } := by
  have hsalt := lt_length_of_getElem? hsc
  have hfalt := lt_length_of_getElem? hf
  simp [declareObject, hpo, hkind, hcs, State.scope, hsc, hown, State.object, hf,
    addFuncParam, State.setObject, hfalt, addScopeObject, State.setScope, hsalt,
    addObject_eq_append]

theorem declareObject_procedure_parameter (st : State) (pa sa fa : Nat) (po : Object)
    (sc : Scope) (name : String) (pl : List Ptr) (scope : Ptr)
    (hpo : st.objects[pa]? = some po) (hkind : po.kind = .OBJ_PARAMETER)
    (hcs : st.symtab.currentScope = .addr sa) (hsc : st.scopes[sa]? = some sc)
    (hown : sc.owner = .addr fa)
    (hf : st.objects[fa]? = some (Object.mk name .OBJ_PROCEDURE (.procAttrs pl scope))) :
    declareObject st (.addr pa) = some
      { st with
        objects := st.objects.set fa
          (Object.mk name .OBJ_PROCEDURE (.procAttrs (pl ++ [.addr pa]) scope))
        scopes := st.scopes.set sa { sc with objList := sc.objList ++ [.addr pa] } } := by
  have hsalt := lt_length_of_getElem? hsc
  have hfalt := lt_length_of_getElem? hf
  simp [declareObject, hpo, hkind, hcs, State.scope, hsc, hown, State.object, hf,
    addProcParam, State.setObject, hfalt, addScopeObject, State.setScope, hsalt,
    addObject_eq_append]

theorem setParamType_created (st : State) (name : String) (kind : ParamKind) (owner : Ptr)
    (type : Type_) :
    setParamType (createParameterObject st name kind owner).1
        (createParameterObject st name kind owner).2 type =
      some { st with
        objects := st.objects ++
          [Object.mk name .OBJ_PARAMETER (.paramAttrs kind (some type) owner)] } := by
  simp only [setParamType, createParameterObject, State.object, getElem?_append_length,
    List.getElem?_cons_zero]
  exact setObject_last st _ _

/-- One parameter more: created, typed and declared in a state in which the
routine is declared with the parameters `pl`. -/
theorem routineDeclared_step (st : State) (fa sa : Nat) (pl : List Ptr) (name : String)
    (kind : ParamKind) (type : Type_) (h : RoutineDeclared st fa sa pl) :
    ∃ st1 st2,
      setParamType (createParameterObject st name kind (.addr fa)).1
        (createParameterObject st name kind (.addr fa)).2 type = some st1 ∧
      declareObject st1 (createParameterObject st name kind (.addr fa)).2 = some st2 ∧
      RoutineDeclared st2 fa sa (pl ++ [.addr st.objects.length]) := by
  obtain ⟨hcs, ⟨outer, hsc⟩, hf, hparams, hnodup⟩ := h
  have hsalt := lt_length_of_getElem? hsc
  have hfalt : fa < st.objects.length := by
    rcases hf with ⟨n, rt, hf⟩ | ⟨n, hf⟩ <;> exact lt_length_of_getElem? hf
  have hfne : st.objects.length ≠ fa := Nat.ne_of_gt hfalt
  have hnew : Ptr.addr st.objects.length ∉ pl := by
    intro hmem
    obtain ⟨a, n, k, t, hp, _, ha⟩ := hparams _ hmem
    cases hp
    exact absurd (lt_length_of_getElem? ha) (Nat.lt_irrefl _)
  have hkeep : ∀ (F P : Object), ∀ p ∈ pl ++ [Ptr.addr st.objects.length],
      P = Object.mk name .OBJ_PARAMETER (.paramAttrs kind (some type) (.addr fa)) →
      ∃ a n k t, p = .addr a ∧ a ≠ fa ∧
        ((st.objects ++ [P]).set fa F)[a]? =
          some (Object.mk n .OBJ_PARAMETER (.paramAttrs k (some t) (.addr fa))) := by
    intro F P p hp hP
    rcases List.mem_append.mp hp with hp | hp
    · obtain ⟨a, n, k, t, hpa, hne, ha⟩ := hparams p hp
      refine ⟨a, n, k, t, hpa, hne, ?_⟩
      rw [List.getElem?_set_ne (Ne.symm hne),
        List.getElem?_append_left (lt_length_of_getElem? ha)]
      exact ha
    · rw [List.mem_singleton] at hp
      refine ⟨st.objects.length, name, kind, type, hp, hfne, ?_⟩
      rw [List.getElem?_set_ne (Ne.symm hfne), getElem?_append_length, hP]
      rfl
  have hnodup1 : (pl ++ [Ptr.addr st.objects.length]).Nodup := by
    rw [List.nodup_append]
    refine ⟨hnodup, List.nodup_singleton _, ?_⟩
    intro x hx hx1
    rw [List.mem_singleton] at hx1
    subst hx1
    exact hnew hx
  have hfalt1 : fa < (st.objects ++
      [Object.mk name .OBJ_PARAMETER (.paramAttrs kind (some type) (.addr fa))]).length := by
    rw [List.length_append]
    exact Nat.lt_add_right _ hfalt
  rcases hf with ⟨fname, rt, hf⟩ | ⟨fname, hf⟩
  · refine ⟨_, _, setParamType_created st name kind (.addr fa) type,
      declareObject_function_parameter _ st.objects.length sa fa _
        (Scope.mk pl (.addr fa) outer) fname pl (some rt) (.addr sa)
        (getElem?_append_length _ _) rfl hcs hsc rfl ?_, ?_⟩
    · show (st.objects ++ _)[fa]? = _
      rw [List.getElem?_append_left hfalt]
      exact hf
    · refine ⟨hcs, ⟨outer, ?_⟩, Or.inl ⟨fname, rt, ?_⟩, ?_, hnodup1⟩
      · exact List.getElem?_set_self hsalt
      · exact List.getElem?_set_self hfalt1
      · intro p hp
        exact hkeep _ _ p hp rfl
  · refine ⟨_, _, setParamType_created st name kind (.addr fa) type,
      declareObject_procedure_parameter _ st.objects.length sa fa _
        (Scope.mk pl (.addr fa) outer) fname pl (.addr sa)
        (getElem?_append_length _ _) rfl hcs hsc rfl ?_, ?_⟩
    · show (st.objects ++ _)[fa]? = _
      rw [List.getElem?_append_left hfalt]
      exact hf
    · refine ⟨hcs, ⟨outer, ?_⟩, Or.inr ⟨fname, ?_⟩, ?_, hnodup1⟩
      · exact List.getElem?_set_self hsalt
      · exact List.getElem?_set_self hfalt1
      · intro p hp
        exact hkeep _ _ p hp rfl

theorem routineDeclared_declareParameters (fa sa : Nat) :
    ∀ (params : List (String × ParamKind × Type_)) (st : State) (pl : List Ptr),
      RoutineDeclared st fa sa pl →
      ∃ st1 pl1, declareParameters st (.addr fa) params = some st1 ∧
        RoutineDeclared st1 fa sa pl1 ∧ pl1.length = pl.length + params.length := by
  intro params
  induction params with
  | nil =>
      intro st pl h
      exact ⟨st, pl, rfl, h, rfl⟩
  | cons param rest ih =>
      intro st pl h
      obtain ⟨name, kind, type⟩ := param
      obtain ⟨st1, st2, h1, h2, h3⟩ := routineDeclared_step st fa sa pl name kind type h
      obtain ⟨st3, pl3, h4, h5, h6⟩ := ih st2 _ h3
      refine ⟨st3, pl3, ?_, h5, ?_⟩
      · simp only [declareParameters, h1, h2]
        exact h4
      · rw [h6]
        simp only [List.length_append, List.length_cons, List.length_nil]
        omega

theorem freeType_count_object (t : Type_) (q : Ptr) :
    (freeType t).count (Freed.object q) = 0 := by
  rw [List.count_eq_zero, freeType_eq_nodes]
  simp

theorem freeReferenceList_eq_map (pl : List Ptr) :
    freeReferenceList pl = pl.map Freed.paramNode := by
  induction pl with
  | nil => rfl
  | cons p rest ih => simp [freeReferenceList, ih]

theorem freeReferenceList_count_object (pl : List Ptr) (q : Ptr) :
    (freeReferenceList pl).count (Freed.object q) = 0 := by
  rw [List.count_eq_zero, freeReferenceList_eq_map]
  simp

/-- The release of an object list that holds typed PARAMETER objects: every
object is freed as often as the list holds it. -/
theorem freeObjectList_parameters (st : State) (fa : Nat) :
    ∀ (pl : List Ptr) (fuel : Nat),
      (∀ p ∈ pl, ∃ a name kind type, p = Ptr.addr a ∧ a ≠ fa ∧
        st.objects[a]? =
          some (Object.mk name .OBJ_PARAMETER (.paramAttrs kind (some type) (.addr fa)))) →
      pl.length + 2 ≤ fuel →
      ∃ freed, freeObjectList st fuel pl = some freed ∧
        ∀ q, freed.count (Freed.object q) = pl.count q := by
  intro pl
  induction pl with
  | nil =>
      intro fuel _ hfuel
      obtain ⟨k, rfl⟩ : ∃ k, fuel = k + 1 := ⟨fuel - 1, by simp at hfuel; omega⟩
      exact ⟨[], by simp [freeObjectList], by simp⟩
  | cons p rest ih =>
      intro fuel hparams hfuel
      simp only [List.length_cons] at hfuel
      obtain ⟨j, rfl⟩ : ∃ j, fuel = j + 1 + 1 := ⟨fuel - 2, by omega⟩
      obtain ⟨a, name, kind, type, hp, _, ha⟩ := hparams p (List.mem_cons_self p rest)
      subst hp
      obtain ⟨freed, hfreed, hcount⟩ :=
        ih (j + 1) (fun x hx => hparams x (List.mem_cons_of_mem _ hx)) (by omega)
      have hobj : freeObject st (j + 1) (.addr a) =
          some (freeType type ++ [Freed.attrs (.addr a)] ++ [Freed.object (.addr a)]) := by
        simp [freeObject, State.object, ha]
      refine ⟨_, by rw [freeObjectList, hobj, hfreed], ?_⟩
      intro q
      simp only [List.count_append, freeType_count_object, hcount, List.count_cons,
        List.count_nil]
      simp
      omega

/-- The release of a routine declared with the parameters `pl`: `freeObject`
returns for every sufficient fuel, and its frees contain every parameter
object exactly once. -/
theorem routineDeclared_release (st : State) (fa sa : Nat) (pl : List Ptr)
    (h : RoutineDeclared st fa sa pl) :
    (st.object (.addr fa)).bind Object.paramList = some pl ∧
    ((st.object (.addr fa)).bind Object.scope).bind (fun s => (st.scope s).map Scope.objList) =
      some pl ∧
    pl.Nodup ∧
    (∀ p ∈ pl, (st.object p).map Object.kind = some .OBJ_PARAMETER) ∧
    ∃ freed, (∀ fuel, pl.length + 4 ≤ fuel → freeObject st fuel (.addr fa) = some freed) ∧
      ∀ p ∈ pl, freed.count (Freed.object p) = 1 := by
  obtain ⟨hcs, ⟨outer, hsc⟩, hf, hparams, hnodup⟩ := h
  obtain ⟨lf, hlf, hcount⟩ := freeObjectList_parameters st fa pl (pl.length + 2) hparams
    (le_refl _)
  have hscope : freeScope st (pl.length + 3) (.addr sa) = some (lf ++ [Freed.scope (.addr sa)]) := by
    simp [freeScope, State.scope, hsc, hlf]
  have hkinds : ∀ p ∈ pl, (st.object p).map Object.kind = some .OBJ_PARAMETER := by
    intro p hp
    obtain ⟨a, n, k, t, rfl, _, ha⟩ := hparams p hp
    simp [State.object, ha]
  have hone : ∀ p ∈ pl, lf.count (Freed.object p) = 1 := by
    intro p hp
    rw [hcount]
    exact List.count_eq_one_of_mem hnodup hp
  have hself : ∀ p ∈ pl, p ≠ Ptr.addr fa := by
    intro p hp hpf
    obtain ⟨a, n, k, t, hpa, hne, _⟩ := hparams p hp
    rw [hpf] at hpa
    cases hpa
    exact hne rfl
  rcases hf with ⟨name, rt, hf⟩ | ⟨name, hf⟩
  · refine ⟨by simp [State.object, hf, Object.paramList],
      by simp [State.object, hf, Object.scope, State.scope, hsc], hnodup, hkinds,
      freeReferenceList pl ++ freeType rt ++ (lf ++ [Freed.scope (.addr sa)]) ++
        [Freed.attrs (.addr fa)] ++ [Freed.object (.addr fa)], ?_, ?_⟩
    · intro fuel hfuel
      refine freeObject_mono st hfuel ?_
      simp only [freeObject, State.object, hf, hscope]
    · intro p hp
      have hne : ¬ (Ptr.addr fa = p) := fun h => hself p hp h.symm
      simp [List.count_append, freeType_count_object, freeReferenceList_count_object,
        hone p hp, List.count_cons, hne]
  · refine ⟨by simp [State.object, hf, Object.paramList],
      by simp [State.object, hf, Object.scope, State.scope, hsc], hnodup, hkinds,
      freeReferenceList pl ++ (lf ++ [Freed.scope (.addr sa)]) ++
        [Freed.attrs (.addr fa)] ++ [Freed.object (.addr fa)], ?_, ?_⟩
    · intro fuel hfuel
      refine freeObject_mono st hfuel ?_
      simp only [freeObject, State.object, hf, hscope]
    · intro p hp
      have hne : ¬ (Ptr.addr fa = p) := fun h => hself p hp h.symm
      simp [List.count_append, freeReferenceList_count_object,
        hone p hp, List.count_cons, hne]

theorem routineDeclared_function (st : State) (name : String) (returnType : Type_) :
    ∃ st1, setReturnType (createFunctionObject st name).1 (createFunctionObject st name).2
        returnType = some st1 ∧
      (createFunctionObject st name).2 = .addr st.objects.length ∧
      (st1.object (.addr st.objects.length)).bind Object.scope = some (.addr st.scopes.length) ∧
      RoutineDeclared (enterBlock st1 (.addr st.scopes.length)) st.objects.length
        st.scopes.length [] := by
  refine ⟨{ st with
      objects := st.objects ++
        [Object.mk name .OBJ_FUNCTION (.funcAttrs [] (some returnType) (.addr st.scopes.length))]
      scopes := st.scopes ++ [Scope.mk [] (.addr st.objects.length) st.symtab.currentScope] },
    ?_, rfl, ?_, ?_⟩
  · simp [setReturnType, createFunctionObject, createScope, State.object, State.setObject]
  · simp [State.object, Object.scope]
  · refine ⟨rfl, ⟨st.symtab.currentScope, ?_⟩, Or.inl ⟨name, returnType, ?_⟩, ?_,
      List.nodup_nil⟩
    · simp [enterBlock]
    · simp [enterBlock]
    · intro p hp; cases hp

theorem routineDeclared_procedure (st : State) (name : String) :
    (createProcedureObject st name).2 = .addr st.objects.length ∧
    ((createProcedureObject st name).1.object (.addr st.objects.length)).bind Object.scope =
      some (.addr st.scopes.length) ∧
    RoutineDeclared (enterBlock (createProcedureObject st name).1 (.addr st.scopes.length))
      st.objects.length st.scopes.length [] := by
  refine ⟨rfl, ?_, ?_⟩
  · simp [createProcedureObject, createScope, State.object, Object.scope]
  · refine ⟨rfl, ⟨st.symtab.currentScope, ?_⟩, Or.inr ⟨name, ?_⟩, ?_, List.nodup_nil⟩
    · simp [enterBlock, createProcedureObject, createScope]
    · simp [enterBlock, createProcedureObject, createScope]
    · intro p hp; cases hp

/-- C13: for a function built by `createFunctionObject` with its return type
set, and for a procedure built by `createProcedureObject`, whose parameters
were each created, given a type and declared with `declareObject` while the
scope of the routine was the current one: the parameter list and the object
list of the scope hold the same, pairwise different, PARAMETER objects;
`freeObject` on the routine returns for every sufficient fuel and its frees
contain every parameter object exactly once; `freeReferenceList` on the
parameter list frees the nodes of the list and no object. -/
theorem freeObject_routine_parameters_once (st : State) (name : String) (returnType : Type_)
    (params : List (String × ParamKind × Type_)) :
    (∃ st1 f pl freed, buildFunction st name returnType params = some (st1, f) ∧
      (st1.object f).bind Object.paramList = some pl ∧
      ((st1.object f).bind Object.scope).bind (fun s => (st1.scope s).map Scope.objList) =
        some pl ∧
      pl.length = params.length ∧ pl.Nodup ∧
      (∀ p ∈ pl, (st1.object p).map Object.kind = some .OBJ_PARAMETER) ∧
      (∀ fuel, params.length + 4 ≤ fuel → freeObject st1 fuel f = some freed) ∧
      (∀ p ∈ pl, freed.count (Freed.object p) = 1) ∧
      freeReferenceList pl = pl.map Freed.paramNode ∧
      (∀ p, (freeReferenceList pl).count (Freed.object p) = 0)) ∧
    (∃ st1 f pl freed, buildProcedure st name params = some (st1, f) ∧
      (st1.object f).bind Object.paramList = some pl ∧
      ((st1.object f).bind Object.scope).bind (fun s => (st1.scope s).map Scope.objList) =
        some pl ∧
      pl.length = params.length ∧ pl.Nodup ∧
      (∀ p ∈ pl, (st1.object p).map Object.kind = some .OBJ_PARAMETER) ∧
      (∀ fuel, params.length + 4 ≤ fuel → freeObject st1 fuel f = some freed) ∧
      (∀ p ∈ pl, freed.count (Freed.object p) = 1) ∧
      freeReferenceList pl = pl.map Freed.paramNode ∧
      (∀ p, (freeReferenceList pl).count (Freed.object p) = 0)) := by
  constructor
  · obtain ⟨st0, hset, hf, hscope, hdecl0⟩ := routineDeclared_function st name returnType
    obtain ⟨st1, pl, hdp, hdecl, hlen⟩ :=
      routineDeclared_declareParameters _ _ params _ [] hdecl0
    obtain ⟨h1, h2, h3, h4, freed, h5, h6⟩ := routineDeclared_release _ _ _ _ hdecl
    have hlen1 : pl.length = params.length := by simpa using hlen
    refine ⟨st1, .addr st.objects.length, pl, freed, ?_, h1, h2, hlen1, h3, h4, ?_, h6,
      freeReferenceList_eq_map pl, freeReferenceList_count_object pl⟩
    · rw [hf] at hset
      simp only [buildFunction, hf, hset]
      rw [hscope]
      simp only [hdp]
    · intro fuel hfuel
      exact h5 fuel (by rw [hlen1]; exact hfuel)
  · obtain ⟨hf, hscope, hdecl0⟩ := routineDeclared_procedure st name
    obtain ⟨st1, pl, hdp, hdecl, hlen⟩ :=
      routineDeclared_declareParameters _ _ params _ [] hdecl0
    obtain ⟨h1, h2, h3, h4, freed, h5, h6⟩ := routineDeclared_release _ _ _ _ hdecl
    have hlen1 : pl.length = params.length := by simpa using hlen
    refine ⟨st1, .addr st.objects.length, pl, freed, ?_, h1, h2, hlen1, h3, h4, ?_, h6,
      freeReferenceList_eq_map pl, freeReferenceList_count_object pl⟩
    · simp only [buildProcedure, hf]
      rw [hscope]
      simp only [hdp]
    · intro fuel hfuel
      exact h5 fuel (by rw [hlen1]; exact hfuel)

/-! ## Properties of `duplicateType` -/

theorem readType_append {types : List TypeNode} (more : List TypeNode) :
    ∀ (fuel : Nat) (type : Ptr) (t : Type_),
      readType types fuel type = some t → readType (types ++ more) fuel type = some t := by
  intro fuel
  induction fuel with
  | zero => intro type t h; simp [readType] at h
  | succ n ih =>
      intro type t h
      cases type with
      | null => simp [readType] at h
      | addr a =>
          rw [readType] at h ⊢
          cases hn : types[a]? with
          | none => simp [hn] at h
          | some node =>
              rw [List.getElem?_append_left (lt_length_of_getElem? hn), hn]
              simp only [hn] at h
              rcases node with ⟨cls, size, elem⟩
              cases cls with
              | TP_INT => exact h
              | TP_CHAR => exact h
              | TP_ARRAY =>
                  cases size with
                  | none => simp at h
                  | some size =>
                      cases elem with
                      | none => simp at h
                      | some e =>
                          simp only [] at h ⊢
                          cases he : readType types n e with
                          | none => simp [he] at h
                          | some te =>
                              rw [ih e te he]
                              rw [he] at h
                              exact h

theorem readType_fuel {types : List TypeNode} :
    ∀ (fuel : Nat) (type : Ptr) (t : Type_),
      readType types fuel type = some t → t.nodes.length ≤ fuel := by
  intro fuel
  induction fuel with
  | zero => intro type t h; simp [readType] at h
  | succ n ih =>
      intro type t h
      cases type with
      | null => simp [readType] at h
      | addr a =>
          rw [readType] at h
          cases hn : types[a]? with
          | none => simp [hn] at h
          | some node =>
              simp only [hn] at h
              rcases node with ⟨cls, size, elem⟩
              cases cls with
              | TP_INT => simp at h; subst h; simp [Type_.nodes]
              | TP_CHAR => simp at h; subst h; simp [Type_.nodes]
              | TP_ARRAY =>
                  cases size with
                  | none => simp at h
                  | some size =>
                      cases elem with
                      | none => simp at h
                      | some e =>
                          simp only [] at h
                          cases he : readType types n e with
                          | none => simp [he] at h
                          | some te =>
                              simp only [he] at h
                              cases h
                              have := ih e te he
                              simp only [Type_.nodes, List.length_cons]
                              omega

theorem layout_length (t : Type_) : ∀ base : Nat, (t.layout base).length = t.nodes.length := by
  induction t with
  | int => intro base; rfl
  | char => intro base; rfl
  | array n e ih => intro base; simp [Type_.layout, Type_.nodes, ih]

theorem readType_layout (t : Type_) :
    ∀ (types : List TypeNode) (fuel : Nat), t.nodes.length ≤ fuel →
      readType (types ++ t.layout types.length) fuel (.addr types.length) = some t := by
  induction t with
  | int =>
      intro types fuel hfuel
      obtain ⟨k, rfl⟩ : ∃ k, fuel = k + 1 := ⟨fuel - 1, by simp [Type_.nodes] at hfuel; omega⟩
      simp [readType, Type_.layout, getElem?_append_length]
  | char =>
      intro types fuel hfuel
      obtain ⟨k, rfl⟩ : ∃ k, fuel = k + 1 := ⟨fuel - 1, by simp [Type_.nodes] at hfuel; omega⟩
      simp [readType, Type_.layout, getElem?_append_length]
  | array n e ih =>
      intro types fuel hfuel
      obtain ⟨k, rfl⟩ : ∃ k, fuel = k + 1 := ⟨fuel - 1, by simp [Type_.nodes] at hfuel; omega⟩
      have hk : e.nodes.length ≤ k := by simp [Type_.nodes] at hfuel; omega
      have hrec := ih (types ++ [TypeNode.mk .TP_ARRAY (some n) (some (.addr (types.length + 1)))])
        k hk
      simp only [List.length_append, List.length_singleton, List.append_assoc,
        List.singleton_append] at hrec
      simp [readType, Type_.layout, getElem?_append_length, List.getElem?_cons_zero, hrec,
        -List.getElem?_eq_getElem]

theorem duplicateType_layout :
    ∀ (fuel : Nat) (types : List TypeNode) (type : Ptr) (t : Type_),
      readType types fuel type = some t →
      duplicateType types fuel type =
        some (types ++ t.layout types.length, .addr types.length) := by
  intro fuel
  induction fuel with
  | zero => intro types type t h; simp [readType] at h
  | succ n ih =>
      intro types type t h
      cases type with
      | null => simp [readType] at h
      | addr a =>
          rw [readType] at h
          rw [duplicateType]
          cases hn : types[a]? with
          | none => simp [hn] at h
          | some node =>
              simp only [hn] at h ⊢
              rcases node with ⟨cls, size, elem⟩
              cases cls with
              | TP_INT => simp at h; subst h; simp [Type_.layout]
              | TP_CHAR => simp at h; subst h; simp [Type_.layout]
              | TP_ARRAY =>
                  cases size with
                  | none => simp at h
                  | some size =>
                      cases elem with
                      | none => simp at h
                      | some e =>
                          simp only [] at h
                          cases he : readType types n e with
                          | none => simp [he] at h
                          | some te =>
                              simp only [he] at h
                              cases h
                              have hrec := ih (types ++ [TypeNode.mk .TP_ARRAY none none]) e te
                                (readType_append _ n e te he)
                              simp only [if_true, hrec]
                              simp [Type_.layout, set_append_length]

theorem readType_set_fresh {types : List TypeNode} (more : List TypeNode) (a : Nat)
    (node : TypeNode) (ha : types.length ≤ a) (fuel : Nat) (type : Ptr) (t : Type_)
    (h : readType types fuel type = some t) :
    readType ((types ++ more).set a node) fuel type = some t := by
  rw [List.set_append_right _ _ ha]
  exact readType_append _ fuel type t h

/-- C2: when the store holds the type tree `t` at `type`, `duplicateType`
returns a pointer to a new node past the old store; the old nodes are
unchanged and the tree at `type` is still `t`; one new node is allocated for
every node of `t`, each array node of the copy pointing to the next new node,
so that no node of the copy is a node of the original; the tree at the copy
has the class, the sizes and the element types of `t` at every level, and
`compareType` on the two trees returns 1; a later store into any node of the
copy leaves the tree at `type` unchanged. -/
theorem compareType_duplicateType (types : List TypeNode) (fuel : Nat) (type : Ptr)
    (t : Type_) (h : readType types fuel type = some t) :
    ∃ types1 copy t1,
      duplicateType types fuel type = some (types1, copy) ∧
      readType types1 fuel copy = some t1 ∧
      readType types1 fuel type = some t ∧
      compareType t t1 = 1 ∧
      t1 = t ∧
      copy = .addr types.length ∧
      types[types.length]? = none ∧
      types1 = types ++ t.layout types.length ∧
      types1.length = types.length + t.nodes.length ∧
      (∀ a, a < types.length → types1[a]? = types[a]?) ∧
      (∀ (a : Nat) (node : TypeNode), types.length ≤ a →
        readType (types1.set a node) fuel type = some t) := by
  refine ⟨types ++ t.layout types.length, .addr types.length, t,
    duplicateType_layout fuel types type t h,
    readType_layout t types fuel (readType_fuel fuel type t h),
    readType_append _ fuel type t h, ?_, rfl, rfl, ?_, rfl, ?_, ?_, ?_⟩
  · rw [compareType_eq_ite]; simp
  · simp
  · simp [layout_length]
  · intro a ha
    exact List.getElem?_append_left ha
  · intro a node ha
    exact readType_set_fresh _ a node ha fuel type t h

theorem compareType_duplicateType_witness :
    readType arrayOfIntStore 2 (.addr 0) = some (.array 3 .int) ∧
    ∃ types1 copy t1,
      duplicateType arrayOfIntStore 2 (.addr 0) = some (types1, copy) ∧
      readType types1 2 copy = some t1 ∧
      readType types1 2 (.addr 0) = some (.array 3 .int) ∧
      compareType (.array 3 .int) t1 = 1 ∧
      t1 = .array 3 .int ∧
      copy = .addr arrayOfIntStore.length ∧
      arrayOfIntStore[arrayOfIntStore.length]? = none ∧
      types1 = arrayOfIntStore ++ (Type_.array 3 .int).layout arrayOfIntStore.length ∧
      types1.length = arrayOfIntStore.length + (Type_.array 3 .int).nodes.length ∧
      (∀ a, a < arrayOfIntStore.length → types1[a]? = arrayOfIntStore[a]?) ∧
      (∀ (a : Nat) (node : TypeNode), arrayOfIntStore.length ≤ a →
        readType (types1.set a node) 2 (.addr 0) = some (.array 3 .int)) :=
  ⟨by decide, compareType_duplicateType arrayOfIntStore 2 (.addr 0) (.array 3 .int) (by decide)⟩

end KPL
